import Mathlib

/-!
# OpenCL image filters: the host program `main.cpp`

A shallow embedding of `src/main.cpp` and the properties of its specification.

* `generateGaussianKernel` (lines 22-40) is a function of the kernel size and of `sigma`. The
  type of `float` values and `std::exp` are parameters: the definition runs on any carrier with
  `0`, `+`, `*`, `/` and a cast from the integers (on `ℚ` for instance), and the statements
  about exact arithmetic take the carrier `ℝ` with `Real.exp`. The C++ type `int` has 32
  bits: every `int` operation of the function goes through `intValue`, and signed overflow,
  like a write outside the vector, is undefined behaviour, which the result `none` stands
  for.
* `main` (lines 42-208) is a function from the environment of a run (`Env`: command line,
  decoded image, platforms and devices, files, and the status every OpenCL call ends with) to
  the trace of observable events and the way the run ends. Calls into OpenCV are events that
  cannot fail. The size of the output buffer on line 124 is an `int` product, which can
  overflow. Calls into the OpenCL C++ bindings go through
  `errHandler`: the program defines `CL_HPP_ENABLE_EXCEPTIONS` on line 1, so that a status
  other than `CL_SUCCESS` is thrown as a `cl::Error`. A kernel object is named in events by
  the entry point it was created from.
* Memory is not a part of the model: the allocation of a vector whose size is a non-negative
  `int` succeeds.
-/

namespace ImageFilters

variable {α : Type}

/-! ## Definitions -/

/-- The largest value of the C++ type `int` (32 bits). -/
def INT_MAX : Int := 2147483647

/-- The smallest value of the C++ type `int` (32 bits). -/
def INT_MIN : Int := -2147483648

/-- The result of an `int` operation whose mathematical value is `x`: signed overflow is
undefined behaviour. -/
def intValue (x : Int) : Option Int :=
  if INT_MIN ≤ x ∧ x ≤ INT_MAX then some x else none

/-- The loop `for (int i = lo; i <= hi; i++) body`, started with counter `i`, on a state `σ`;
`none` when an iteration has no defined result. The counter stays within `int` for every
bound the loops of this program reach. -/
def forLoop {σ : Type} (i hi : Int) (body : Int → σ → Option σ) (s : σ) : Option σ :=
  if i ≤ hi then (body i s).bind (forLoop (i + 1) hi body) else some s
termination_by (hi + 1 - i).toNat
decreasing_by omega

/-- The assignment `v[idx] = x` on a `std::vector`: undefined outside `[0, v.size())`. -/
def vecWrite (v : Array α) (idx : Int) (x : α) : Option (Array α) :=
  if 0 ≤ idx ∧ idx < v.size then some (v.setD idx.toNat x) else none

/-- The mathematical value of the index expression of line 30,
`(i + halfSize) * kernelSize + (j + halfSize)`. -/
def writeIndex (kernelSize halfSize i j : Int) : Int :=
  (i + halfSize) * kernelSize + (j + halfSize)

/-- Line 30: the index `(i + halfSize) * kernelSize + (j + halfSize)` computed in `int`. -/
def writeIndexInt (kernelSize halfSize i j : Int) : Option Int := do
  let row ← intValue (i + halfSize)
  let rowStart ← intValue (row * kernelSize)
  let col ← intValue (j + halfSize)
  intValue (rowStart + col)

/-- Line 29: the numerator `-(i * i + j * j)` computed in `int`. -/
def exponentInt (i j : Int) : Option Int := do
  let ii ← intValue (i * i)
  let jj ← intValue (j * j)
  let s ← intValue (ii + jj)
  intValue (-s)

/-- The mathematical value of line 29, `std::exp(-(i * i + j * j) / (2 * sigma * sigma))`:
the numerator an integer converted to `float`, the denominator the `float` product taken
from the left. -/
def gaussianValue [Mul α] [Div α] [IntCast α] (exp : α → α) (sigma : α) (i j : Int) : α :=
  exp (((-(i * i + j * j) : Int) : α) / (((2 : Int) : α) * sigma * sigma))

/-- Lines 29-31: one iteration of the inner loop on the state `(kernel, sum)`. -/
def kernelStep [Add α] [Mul α] [Div α] [IntCast α] (exp : α → α) (kernelSize halfSize : Int)
    (sigma : α) (i j : Int) (st : Array α × α) : Option (Array α × α) := do
  let e ← exponentInt i j
  let value : α := exp ((e : α) / (((2 : Int) : α) * sigma * sigma))
  let idx ← writeIndexInt kernelSize halfSize i j
  let kernel ← vecWrite st.1 idx value
  pure (kernel, st.2 + value)

/-- Lines 22-40. The state of the loops is the pair of `kernel` and `sum`; `kernelSize / 2`
truncates as in C++; `none` stands for undefined behaviour (signed overflow, a write outside
the vector). -/
def generateGaussianKernel [Zero α] [Add α] [Mul α] [Div α] [IntCast α]
    (exp : α → α) (kernelSize : Int) (sigma : α) : Option (Array α) := do
  let size ← intValue (kernelSize * kernelSize)
  let kernel : Array α := mkArray size.toNat 0
  let halfSize : Int := Int.tdiv kernelSize 2
  let sum : α := 0
  let st ← forLoop (-halfSize) halfSize (fun i st =>
    forLoop (-halfSize) halfSize (fun j st =>
      kernelStep exp kernelSize halfSize sigma i j st) st) (kernel, sum)
  pure (st.1.map (fun value => value / st.2))

/-- The offsets `-h, ..., h` in the order the loops visit them. -/
def offsets (h : Int) : List Int :=
  (List.range (2 * h + 1).toNat).map (fun (n : ℕ) => (n : Int) - h)

/-- The value of `sum` after the row `a`, started from `s`. -/
def rowSum [Add α] [Mul α] [Div α] [IntCast α] (exp : α → α) (sigma : α) (h : Int) (s : α)
    (a : Int) : α :=
  (offsets h).foldl (fun s b => s + gaussianValue exp sigma a b) s

/-- The sum `S` of the values over all offsets `a, b ∈ [-h, h]`, accumulated from `0` in
row-major order with the addition of the carrier. -/
def gaussianSum [Zero α] [Add α] [Mul α] [Div α] [IntCast α] (exp : α → α) (sigma : α)
    (h : Int) : α :=
  (offsets h).foldl (rowSum exp sigma h) 0

/-- The offsets below `x` in the order the loops visit them. -/
def offsetsBelow (h x : Int) : List Int :=
  (List.range (x + h).toNat).map (fun (n : ℕ) => (n : Int) - h)

/-- Invariant of the inner loop of `generateGaussianKernel` on row `i`, before column `j`. -/
def innerInv [Mul α] [Div α] [IntCast α] (exp : α → α) (sigma : α) (H : ℕ)
    (Q : Int → Int → α → Prop) (i j : Int) (st : Array α × α) : Prop :=
  -(H : Int) ≤ j ∧ j ≤ H + 1 ∧ st.1.size = (2 * H + 1) * (2 * H + 1) ∧
    (∀ a b : Int, -(H : Int) ≤ a → a ≤ H → -(H : Int) ≤ b → b ≤ H → (a < i ∨ (a = i ∧ b < j)) →
      st.1[(writeIndex (2 * H + 1) H a b).toNat]? = some (gaussianValue exp sigma a b)) ∧
    Q i j st.2

/-- Invariant of the outer loop of `generateGaussianKernel`, before row `i`. -/
def outerInv [Mul α] [Div α] [IntCast α] (exp : α → α) (sigma : α) (H : ℕ)
    (Q : Int → Int → α → Prop) (i : Int) (st : Array α × α) : Prop :=
  -(H : Int) ≤ i ∧ i ≤ H + 1 ∧ st.1.size = (2 * H + 1) * (2 * H + 1) ∧
    (∀ a b : Int, -(H : Int) ≤ a → a ≤ H → -(H : Int) ≤ b → b ≤ H → a < i →
      st.1[(writeIndex (2 * H + 1) H a b).toNat]? = some (gaussianValue exp sigma a b)) ∧
    Q i (-(H : Int)) st.2

/-- Running value of `sum` before the iteration `(i, j)`, as the accumulation of the code. -/
def foldInv [Zero α] [Add α] [Mul α] [Div α] [IntCast α] (exp : α → α) (sigma : α) (H : ℕ)
    (i j : Int) (s : α) : Prop :=
  -(H : Int) ≤ i ∧ -(H : Int) ≤ j ∧
    s = (offsetsBelow H j).foldl (fun s b => s + gaussianValue exp sigma i b)
          ((offsetsBelow H i).foldl (rowSum exp sigma H) 0)

/-- Running value of `sum` before the iteration `(i, j)`, over the reals. -/
def sumInv (exp : ℝ → ℝ) (sigma : ℝ) (H : ℕ) (i j : Int) (s : ℝ) : Prop :=
  -(H : Int) ≤ i ∧ -(H : Int) ≤ j ∧
    s = ∑ a in Finset.Ico (-(H : Int)) i, ∑ b in Finset.Icc (-(H : Int)) H,
          gaussianValue exp sigma a b
        + ∑ b in Finset.Ico (-(H : Int)) j, gaussianValue exp sigma i b

/-- Status code `CL_SUCCESS` of the OpenCL API. -/
def CL_SUCCESS : Int := 0

/-- Status code `CL_BUILD_PROGRAM_FAILURE` of the OpenCL API. -/
def CL_BUILD_PROGRAM_FAILURE : Int := -11

/-- Line 1: the program is compiled with `#define CL_HPP_ENABLE_EXCEPTIONS`. -/
def CL_HPP_ENABLE_EXCEPTIONS : Bool := true

/-- A `cl::Error`: the text of `what()` and the status of `err()`. -/
structure ClError where
  what : String
  err : Int
  deriving DecidableEq, Repr

/-- The texts `main` and `loadKernel` write to `std::cerr`. -/
inductive Message where
  /-- Line 45: "Usage: " argv[0] " <Image Path>". -/
  | usage (argv0 : String)
  /-- Line 52: "Error: Could not open or find the image.". -/
  | imageNotFound
  /-- Line 15: "Error: Could not open kernel source file.". -/
  | kernelSourceNotOpened
  /-- Line 95: "Error during compilation:" followed by the build log. -/
  | compilation (buildlog : String)
  /-- Line 98: "Error building program: " err. -/
  | building (err : Int)
  /-- Line 203: "OpenCL error: " e.what() "(" e.err() ")". -/
  | opencl (what : String) (err : Int)
  deriving DecidableEq, Repr

/-- The texts `main` writes with `printf`. -/
inductive Progress where
  /-- Line 64. -/
  | gaussianKernelGenerated
  /-- Line 69, with `platforms.size()`. -/
  | platforms (n : Nat)
  /-- Line 87. -/
  | programCreated
  /-- Line 102. -/
  | programBuilt
  deriving DecidableEq, Repr

/-- The device memory objects `main` creates. -/
inductive MemObject where
  | srcImage
  | dstImage
  | kernelBuffer
  deriving DecidableEq, Repr

/-- A value bound to a kernel argument by `setArg`: a memory object, an `int`, or a `float`
given by the literal of the source. -/
inductive Arg where
  | mem (m : MemObject)
  | int (n : Int)
  | floatLiteral (token : String)
  deriving DecidableEq, Repr

/-- Observable actions of a run, in program order. An OpenCL call is recorded when it has
returned successfully. -/
inductive Event where
  | cerr (m : Message)
  | printf (p : Progress)
  | imread (path : String)
  | imshow (window : String)
  | cvtColor (code : String)
  | imwrite (file : String)
  | waitKey (delay : Int)
  | getPlatforms
  | getDevicesGPU (platform : Nat)
  | createContext (device : Nat)
  | createCommandQueue (device : Nat)
  | createProgram (source : String)
  | build (device : Nat) (options : String)
  | getBuildLog (device : Nat)
  | createImage2D (m : MemObject) (flags : List String) (width height : Int) (hostData : Bool)
  | createBuffer (m : MemObject) (flags : List String) (bytes : Int)
  | createKernel (name : String)
  | setArg (kernel : String) (index : Nat) (value : Arg)
  | enqueueNDRangeKernel (kernel : String) (offset global loc : List Int)
  | allocOutput (bytes : Int)
  | enqueueReadImage (m : MemObject) (blocking : Bool) (origin region : List Int)
      (hostBytes : Int)
  deriving DecidableEq, Repr

/-- How a run of the program ends. -/
inductive Stop where
  | returned (code : Int)
  | exited (code : Int)
  | thrown (e : ClError)
  /-- An exception other than `cl::Error`, which no handler of `main` catches. -/
  | uncaughtException
  | undefinedBehaviour
  deriving DecidableEq, Repr

/-- The decoded input image (`cv::Mat src`): only its dimensions, of type `int`, matter to
the pipeline. -/
structure Image where
  cols : Int
  rows : Int
  deriving DecidableEq, Repr

/-- Everything outside the program that a run depends on. -/
structure Env where
  /-- Command line. -/
  argc : Int
  argv0 : String
  argv1 : String
  /-- Result of `cv::imread(argv[1])`; `none` when the returned matrix is empty. -/
  decoded : Option Image
  /-- Platforms delivered by `cl::Platform::get`. -/
  platforms : List Nat
  /-- Devices of type GPU delivered by `getDevices` for a platform. -/
  gpuDevices : Nat → List Nat
  /-- Content of a file, `none` when the file cannot be opened. -/
  readFile : String → Option String
  /-- Status the OpenCL call on a given source line ends with. -/
  status : Nat → Int
  /-- Text the bindings attach to a failure of the call on a given source line. -/
  what : Nat → String
  /-- Build log of the program for the device. -/
  buildLog : String

/-- Computations of the host program: a trace of events and either a value or a stop. -/
def M (β : Type) : Type := List Event → Except Stop β × List Event

instance : Monad M where
  pure a := fun t => (Except.ok a, t)
  bind m f := fun t =>
    match m t with
    | (Except.ok a, t') => f a t'
    | (Except.error e, t') => (Except.error e, t')

/-- Appends an event to the trace. -/
def emit (ev : Event) : M Unit := fun t => (Except.ok (), t ++ [ev])

/-- Ends the computation: `return`, `exit`, `throw` or undefined behaviour. -/
def stop {β : Type} (s : Stop) : M β := fun t => (Except.error s, t)

/-- The `try { ... } catch (cl::Error& e) { ... }` construct. -/
def tryCatch {β : Type} (body : M β) (handler : ClError → M β) : M β := fun t =>
  match body t with
  | (Except.error (Stop.thrown e), t') => handler e t'
  | r => r

/-- Error handling of the OpenCL C++ bindings (`CL/opencl.hpp`, outside the repository): with
`CL_HPP_ENABLE_EXCEPTIONS` a status other than `CL_SUCCESS` is thrown as a `cl::Error`,
otherwise the status is returned to the caller. -/
def errHandler (env : Env) (line : Nat) : M Int :=
  if CL_HPP_ENABLE_EXCEPTIONS = true ∧ env.status line ≠ CL_SUCCESS then
    stop (Stop.thrown ⟨env.what line, env.status line⟩)
  else pure (env.status line)

/-- The value of `sizeof(float)`. -/
def sizeofFloat : Int := 4

/-- An OpenCL call on a source line. -/
def clCall (env : Env) (line : Nat) (ev : Event) : M Int := do
  let err ← errHandler env line
  emit ev
  pure err

/-- `std::vector::front()`: undefined on an empty vector. -/
def front {β : Type} : List β → M β
  | [] => stop Stop.undefinedBehaviour
  | x :: _ => pure x

/-- Lines 12-19. -/
def loadKernel (env : Env) (filename : String) : M String :=
  match env.readFile filename with
  | none => do
    emit (Event.cerr Message.kernelSourceNotOpened)
    stop (Stop.exited 1)
  | some text => pure text

/-- Line 124: the size `src.rows * src.cols * 4` of the vector `output`, computed in `int`.
Signed overflow is undefined behaviour (compiled for the usual targets the product wraps to
a negative value); a negative size converts to a `size_t` beyond `max_size()` and the
constructor of the vector throws `std::length_error`, which `main` does not catch. -/
def outputSize (src : Image) : Except Stop Int :=
  match intValue (src.rows * src.cols) with
  | none => Except.error Stop.undefinedBehaviour
  | some pixels =>
    match intValue (pixels * 4) with
    | none => Except.error Stop.undefinedBehaviour
    | some bytes =>
      if bytes < 0 then Except.error Stop.uncaughtException else Except.ok bytes

/-- Line 124: `std::vector<unsigned char> output(src.rows * src.cols * 4)`. -/
def allocOutput (src : Image) : M Unit :=
  match outputSize src with
  | Except.error s => stop s
  | Except.ok bytes => emit (Event.allocOutput bytes)

/-- Lines 103-200: images, buffer and the four filters. -/
def filterPipeline (env : Env) (src : Image) (kernelSize : Int) (gaussianKernelSize : Nat) :
    M Unit := do
  let _ ← clCall env 105 (Event.createImage2D MemObject.srcImage
    ["CL_MEM_READ_ONLY", "CL_MEM_COPY_HOST_PTR"] src.cols src.rows true)
  let _ ← clCall env 106 (Event.createImage2D MemObject.dstImage
    ["CL_MEM_WRITE_ONLY"] src.cols src.rows false)
  let _ ← clCall env 110 (Event.createBuffer MemObject.kernelBuffer
    ["CL_MEM_READ_ONLY", "CL_MEM_COPY_HOST_PTR"] (sizeofFloat * gaussianKernelSize))
  let _ ← clCall env 113 (Event.createKernel "gaussian_filter")
  let _ ← clCall env 114 (Event.setArg "gaussian_filter" 0 (Arg.mem MemObject.srcImage))
  let _ ← clCall env 115 (Event.setArg "gaussian_filter" 1 (Arg.mem MemObject.dstImage))
  let _ ← clCall env 116 (Event.setArg "gaussian_filter" 2 (Arg.mem MemObject.kernelBuffer))
  let _ ← clCall env 117 (Event.setArg "gaussian_filter" 3 (Arg.int kernelSize))
  let global : List Int := [src.cols, src.rows]
  let _ ← clCall env 121 (Event.enqueueNDRangeKernel "gaussian_filter" [] global [])
  allocOutput src
  let _ ← clCall env 125 (Event.enqueueReadImage MemObject.dstImage true [0, 0, 0]
    [src.cols, src.rows, 1] (src.rows * src.cols * 4))
  emit (Event.cvtColor "COLOR_RGBA2BGR")
  emit (Event.imshow "Gaussian Filtered Image")
  emit (Event.imwrite "Gaussian_Filtered_Image.jpg")
  let _ ← clCall env 138 (Event.createKernel "bilateral_filter")
  let _ ← clCall env 139 (Event.setArg "bilateral_filter" 0 (Arg.mem MemObject.srcImage))
  let _ ← clCall env 140 (Event.setArg "bilateral_filter" 1 (Arg.mem MemObject.dstImage))
  let _ ← clCall env 141 (Event.setArg "bilateral_filter" 2 (Arg.floatLiteral "2.0f"))
  let _ ← clCall env 142 (Event.setArg "bilateral_filter" 3 (Arg.floatLiteral "0.1f"))
  let _ ← clCall env 145 (Event.enqueueNDRangeKernel "bilateral_filter" [] global [])
  let _ ← clCall env 146 (Event.enqueueReadImage MemObject.dstImage true [0, 0, 0]
    [src.cols, src.rows, 1] (src.rows * src.cols * 4))
  emit (Event.cvtColor "COLOR_RGBA2BGR")
  emit (Event.imshow "Bilateral Filtered Image")
  emit (Event.imwrite "Bilateral_Filtered_Image.jpg")
  let _ ← clCall env 160 (Event.createKernel "sharpen_filter")
  let _ ← clCall env 161 (Event.setArg "sharpen_filter" 0 (Arg.mem MemObject.srcImage))
  let _ ← clCall env 162 (Event.setArg "sharpen_filter" 1 (Arg.mem MemObject.dstImage))
  let _ ← clCall env 165 (Event.enqueueNDRangeKernel "sharpen_filter" [] global [])
  let _ ← clCall env 166 (Event.enqueueReadImage MemObject.dstImage true [0, 0, 0]
    [src.cols, src.rows, 1] (src.rows * src.cols * 4))
  emit (Event.cvtColor "COLOR_RGBA2BGR")
  emit (Event.imshow "Sharpened Image")
  emit (Event.imwrite "Sharpened_Image.jpg")
  let _ ← clCall env 180 (Event.createKernel "median_filter")
  let _ ← clCall env 181 (Event.setArg "median_filter" 0 (Arg.mem MemObject.srcImage))
  let _ ← clCall env 182 (Event.setArg "median_filter" 1 (Arg.mem MemObject.dstImage))
  let _ ← clCall env 183 (Event.setArg "median_filter" 2 (Arg.int 3))
  let _ ← clCall env 186 (Event.enqueueNDRangeKernel "median_filter" [] global [])
  let _ ← clCall env 187 (Event.enqueueReadImage MemObject.dstImage true [0, 0, 0]
    [src.cols, src.rows, 1] (src.rows * src.cols * 4))
  emit (Event.cvtColor "COLOR_RGBA2BGR")
  emit (Event.imshow "Median Filtered Image")
  emit (Event.imwrite "Median_Filtered_Image.jpg")
  emit (Event.waitKey 0)

/-- Lines 66-200: the body of the `try` block. -/
def tryBody (env : Env) (src : Image) (kernelSize : Int) (gaussianKernelSize : Nat) :
    M Unit := do
  let _ ← clCall env 68 Event.getPlatforms
  emit (Event.printf (Progress.platforms env.platforms.length))
  let platform ← front env.platforms
  let _ ← clCall env 73 (Event.getDevicesGPU platform)
  let device ← front (env.gpuDevices platform)
  let _ ← clCall env 77 (Event.createContext device)
  let _ ← clCall env 80 (Event.createCommandQueue device)
  let kernelSource ← loadKernel env "kernel.cl"
  let _ ← clCall env 86 (Event.createProgram kernelSource)
  emit (Event.printf Progress.programCreated)
  let err ← clCall env 88 (Event.build device "-cl-opt-disable")
  if err = CL_BUILD_PROGRAM_FAILURE then
    let _ ← clCall env 94 (Event.getBuildLog device)
    emit (Event.cerr (Message.compilation env.buildLog))
    stop (Stop.returned (-1))
  else if err ≠ CL_SUCCESS then
    emit (Event.cerr (Message.building err))
    stop (Stop.returned (-1))
  else
    emit (Event.printf Progress.programBuilt)
    filterPipeline env src kernelSize gaussianKernelSize

/-- Lines 42-208. -/
def mainBody [Zero α] [Add α] [Mul α] [Div α] [IntCast α] (exp : α → α) (env : Env) :
    M Unit := do
  if env.argc ≠ 2 then
    emit (Event.cerr (Message.usage env.argv0))
    stop (Stop.returned (-1))
  else
    emit (Event.imread env.argv1)
    match env.decoded with
    | none =>
      emit (Event.cerr Message.imageNotFound)
      stop (Stop.returned (-1))
    | some src =>
      emit (Event.imshow "Original Image")
      emit (Event.cvtColor "COLOR_BGR2RGBA")
      let kernelSize : Int := 15
      let sigma : α := ((3 : Int) : α)
      match generateGaussianKernel exp kernelSize sigma with
      | none => stop Stop.undefinedBehaviour
      | some gaussianKernel =>
        emit (Event.printf Progress.gaussianKernelGenerated)
        tryCatch (tryBody env src kernelSize gaussianKernel.size) (fun e => do
          emit (Event.cerr (Message.opencl e.what e.err))
          stop (Stop.returned (-1)))
        stop (Stop.returned 0)

/-- The trace of a run of `main` and the way it ends. -/
structure Run where
  trace : List Event
  outcome : Option Stop
  deriving DecidableEq, Repr

/-- The run a computation started on the empty trace amounts to. -/
def Run.ofResult : Except Stop Unit × List Event → Run
  | (Except.ok _, t) => ⟨t, none⟩
  | (Except.error s, t) => ⟨t, some s⟩

/-- The program `main` run in an environment. -/
def main [Zero α] [Add α] [Mul α] [Div α] [IntCast α] (exp : α → α) (env : Env) : Run :=
  Run.ofResult (mainBody exp env [])

/-- The way line 124 stops the run, if it does. -/
def outputStop (src : Image) : Option Stop :=
  match outputSize src with
  | Except.error s => some s
  | Except.ok _ => none

/-- The size of the output buffer is a non-negative `int`. -/
def OutputFits (src : Image) : Prop :=
  0 ≤ src.rows * src.cols ∧ src.rows * src.cols * 4 ≤ INT_MAX

/-- A statement of the straight-line block of lines 103-200: its source line, whether it is
an OpenCL call (which can fail with a status), the event it leaves in the trace when it
succeeds, and for a host statement the way it stops the run, if it does. -/
structure Stmt where
  line : Nat
  backend : Bool
  event : Event
  stops : Option Stop

/-- A statement that does not end the run: an OpenCL call with status `CL_SUCCESS`, a host
statement that does not stop. -/
def Stmt.succeeds (env : Env) (s : Stmt) : Prop :=
  (s.backend = true → env.status s.line = CL_SUCCESS) ∧ (s.backend = false → s.stops = none)

/-- Runs one statement of the block. -/
def runStmt (env : Env) (s : Stmt) : M Unit :=
  if s.backend = true then do
    let _ ← clCall env s.line s.event
    pure ()
  else
    match s.stops with
    | some st => stop st
    | none => emit s.event

/-- Runs statements in order, up to the first one that throws. -/
def runStmts (env : Env) : List Stmt → M Unit
  | [] => pure ()
  | s :: rest => do
    runStmt env s
    runStmts env rest

/-- The statements of lines 103-200 in program order. -/
def pipelineStmts (src : Image) (kernelSize : Int) (gaussianKernelSize : Nat) : List Stmt :=
  [⟨105, true, Event.createImage2D MemObject.srcImage
      ["CL_MEM_READ_ONLY", "CL_MEM_COPY_HOST_PTR"] src.cols src.rows true, none⟩,
   ⟨106, true, Event.createImage2D MemObject.dstImage ["CL_MEM_WRITE_ONLY"] src.cols src.rows
      false, none⟩,
   ⟨110, true, Event.createBuffer MemObject.kernelBuffer
      ["CL_MEM_READ_ONLY", "CL_MEM_COPY_HOST_PTR"] (sizeofFloat * gaussianKernelSize), none⟩,
   ⟨113, true, Event.createKernel "gaussian_filter", none⟩,
   ⟨114, true, Event.setArg "gaussian_filter" 0 (Arg.mem MemObject.srcImage), none⟩,
   ⟨115, true, Event.setArg "gaussian_filter" 1 (Arg.mem MemObject.dstImage), none⟩,
   ⟨116, true, Event.setArg "gaussian_filter" 2 (Arg.mem MemObject.kernelBuffer), none⟩,
   ⟨117, true, Event.setArg "gaussian_filter" 3 (Arg.int kernelSize), none⟩,
   ⟨121, true, Event.enqueueNDRangeKernel "gaussian_filter" [] [src.cols, src.rows] [], none⟩,
   ⟨124, false, Event.allocOutput (src.rows * src.cols * 4), outputStop src⟩,
   ⟨125, true, Event.enqueueReadImage MemObject.dstImage true [0, 0, 0]
      [src.cols, src.rows, 1] (src.rows * src.cols * 4), none⟩,
   ⟨131, false, Event.cvtColor "COLOR_RGBA2BGR", none⟩,
   ⟨134, false, Event.imshow "Gaussian Filtered Image", none⟩,
   ⟨135, false, Event.imwrite "Gaussian_Filtered_Image.jpg", none⟩,
   ⟨138, true, Event.createKernel "bilateral_filter", none⟩,
   ⟨139, true, Event.setArg "bilateral_filter" 0 (Arg.mem MemObject.srcImage), none⟩,
   ⟨140, true, Event.setArg "bilateral_filter" 1 (Arg.mem MemObject.dstImage), none⟩,
   ⟨141, true, Event.setArg "bilateral_filter" 2 (Arg.floatLiteral "2.0f"), none⟩,
   ⟨142, true, Event.setArg "bilateral_filter" 3 (Arg.floatLiteral "0.1f"), none⟩,
   ⟨145, true, Event.enqueueNDRangeKernel "bilateral_filter" [] [src.cols, src.rows] [], none⟩,
   ⟨146, true, Event.enqueueReadImage MemObject.dstImage true [0, 0, 0]
      [src.cols, src.rows, 1] (src.rows * src.cols * 4), none⟩,
   ⟨152, false, Event.cvtColor "COLOR_RGBA2BGR", none⟩,
   ⟨155, false, Event.imshow "Bilateral Filtered Image", none⟩,
   ⟨156, false, Event.imwrite "Bilateral_Filtered_Image.jpg", none⟩,
   ⟨160, true, Event.createKernel "sharpen_filter", none⟩,
   ⟨161, true, Event.setArg "sharpen_filter" 0 (Arg.mem MemObject.srcImage), none⟩,
   ⟨162, true, Event.setArg "sharpen_filter" 1 (Arg.mem MemObject.dstImage), none⟩,
   ⟨165, true, Event.enqueueNDRangeKernel "sharpen_filter" [] [src.cols, src.rows] [], none⟩,
   ⟨166, true, Event.enqueueReadImage MemObject.dstImage true [0, 0, 0]
      [src.cols, src.rows, 1] (src.rows * src.cols * 4), none⟩,
   ⟨172, false, Event.cvtColor "COLOR_RGBA2BGR", none⟩,
   ⟨175, false, Event.imshow "Sharpened Image", none⟩,
   ⟨176, false, Event.imwrite "Sharpened_Image.jpg", none⟩,
   ⟨180, true, Event.createKernel "median_filter", none⟩,
   ⟨181, true, Event.setArg "median_filter" 0 (Arg.mem MemObject.srcImage), none⟩,
   ⟨182, true, Event.setArg "median_filter" 1 (Arg.mem MemObject.dstImage), none⟩,
   ⟨183, true, Event.setArg "median_filter" 2 (Arg.int 3), none⟩,
   ⟨186, true, Event.enqueueNDRangeKernel "median_filter" [] [src.cols, src.rows] [], none⟩,
   ⟨187, true, Event.enqueueReadImage MemObject.dstImage true [0, 0, 0]
      [src.cols, src.rows, 1] (src.rows * src.cols * 4), none⟩,
   ⟨193, false, Event.cvtColor "COLOR_RGBA2BGR", none⟩,
   ⟨196, false, Event.imshow "Median Filtered Image", none⟩,
   ⟨197, false, Event.imwrite "Median_Filtered_Image.jpg", none⟩,
   ⟨200, false, Event.waitKey 0, none⟩]

/-- Events of a run up to the end of line 102, when every step up to there succeeds. -/
def setupEvents (env : Env) (platform device : Nat) (kernelSource : String) : List Event :=
  [Event.imread env.argv1, Event.imshow "Original Image", Event.cvtColor "COLOR_BGR2RGBA",
   Event.printf Progress.gaussianKernelGenerated, Event.getPlatforms,
   Event.printf (Progress.platforms env.platforms.length), Event.getDevicesGPU platform,
   Event.createContext device, Event.createCommandQueue device,
   Event.createProgram kernelSource, Event.printf Progress.programCreated,
   Event.build device "-cl-opt-disable", Event.printf Progress.programBuilt]

/-- The run reaches line 103: one argument, a decoded image, a platform with a GPU device,
a readable `kernel.cl`, and the OpenCL calls of lines 68-88 succeed. -/
structure ReachesPipeline (env : Env) (src : Image) (platform device : Nat)
    (kernelSource : String) : Prop where
  argc_eq : env.argc = 2
  decoded_eq : env.decoded = some src
  platform_eq : env.platforms.head? = some platform
  device_eq : (env.gpuDevices platform).head? = some device
  kernelFile_eq : env.readFile "kernel.cl" = some kernelSource
  status68 : env.status 68 = CL_SUCCESS
  status73 : env.status 73 = CL_SUCCESS
  status77 : env.status 77 = CL_SUCCESS
  status80 : env.status 80 = CL_SUCCESS
  status86 : env.status 86 = CL_SUCCESS
  status88 : env.status 88 = CL_SUCCESS

/-- Kernels in the order their dispatches were enqueued. -/
def dispatchOrder (t : List Event) : List String :=
  t.filterMap (fun ev => match ev with
    | Event.enqueueNDRangeKernel k _ _ _ => some k
    | _ => none)

/-- Files written by `cv::imwrite`, in order. -/
def writtenFiles (t : List Event) : List String :=
  t.filterMap (fun ev => match ev with
    | Event.imwrite f => some f
    | _ => none)

/-- Kernels that were created, bound or dispatched, in order of the events. -/
def kernelsTouched (t : List Event) : List String :=
  t.filterMap (fun ev => match ev with
    | Event.createKernel k => some k
    | Event.setArg k _ _ => some k
    | Event.enqueueNDRangeKernel k _ _ _ => some k
    | _ => none)

/-- Number of completed read-backs. -/
def readBackCount (t : List Event) : Nat :=
  t.countP (fun ev => match ev with
    | Event.enqueueReadImage _ _ _ _ _ => true
    | _ => false)

/-- Argument bindings, dispatches and read-backs (and the coefficient buffer). -/
def isFilterCommand : Event → Bool
  | Event.createBuffer _ _ _ => true
  | Event.setArg _ _ _ => true
  | Event.enqueueNDRangeKernel _ _ _ _ => true
  | Event.enqueueReadImage _ _ _ _ _ => true
  | _ => false

/-- Scan of a trace: `pending` holds while a dispatch has not been read back. The scan
fails when an argument is bound or a kernel dispatched while `pending`, and at the end of
the trace when a dispatch is still `pending`; a blocking read of the destination image
clears `pending`. -/
def readBackSeparates : Bool → List Event → Bool
  | pending, [] => !pending
  | pending, Event.setArg _ _ _ :: rest => !pending && readBackSeparates pending rest
  | pending, Event.enqueueNDRangeKernel _ _ _ _ :: rest =>
      !pending && readBackSeparates true rest
  | _, Event.enqueueReadImage MemObject.dstImage true _ _ _ :: rest =>
      readBackSeparates false rest
  | pending, _ :: rest => readBackSeparates pending rest

/-- The bindings, dispatch and read-back of the four filters for an image of width `w` and
height `h`, as the specification lists them. -/
def expectedCommands (w h : Int) : List Event :=
  [Event.createBuffer MemObject.kernelBuffer ["CL_MEM_READ_ONLY", "CL_MEM_COPY_HOST_PTR"]
     (sizeofFloat * 225),
   Event.setArg "gaussian_filter" 0 (Arg.mem MemObject.srcImage),
   Event.setArg "gaussian_filter" 1 (Arg.mem MemObject.dstImage),
   Event.setArg "gaussian_filter" 2 (Arg.mem MemObject.kernelBuffer),
   Event.setArg "gaussian_filter" 3 (Arg.int 15),
   Event.enqueueNDRangeKernel "gaussian_filter" [] [w, h] [],
   Event.enqueueReadImage MemObject.dstImage true [0, 0, 0] [w, h, 1] (w * h * 4),
   Event.setArg "bilateral_filter" 0 (Arg.mem MemObject.srcImage),
   Event.setArg "bilateral_filter" 1 (Arg.mem MemObject.dstImage),
   Event.setArg "bilateral_filter" 2 (Arg.floatLiteral "2.0f"),
   Event.setArg "bilateral_filter" 3 (Arg.floatLiteral "0.1f"),
   Event.enqueueNDRangeKernel "bilateral_filter" [] [w, h] [],
   Event.enqueueReadImage MemObject.dstImage true [0, 0, 0] [w, h, 1] (w * h * 4),
   Event.setArg "sharpen_filter" 0 (Arg.mem MemObject.srcImage),
   Event.setArg "sharpen_filter" 1 (Arg.mem MemObject.dstImage),
   Event.enqueueNDRangeKernel "sharpen_filter" [] [w, h] [],
   Event.enqueueReadImage MemObject.dstImage true [0, 0, 0] [w, h, 1] (w * h * 4),
   Event.setArg "median_filter" 0 (Arg.mem MemObject.srcImage),
   Event.setArg "median_filter" 1 (Arg.mem MemObject.dstImage),
   Event.setArg "median_filter" 2 (Arg.int 3),
   Event.enqueueNDRangeKernel "median_filter" [] [w, h] [],
   Event.enqueueReadImage MemObject.dstImage true [0, 0, 0] [w, h, 1] (w * h * 4)]

/-- The handler of the `catch (cl::Error& e)` clause, lines 202-205. -/
def catchHandler (e : ClError) : M Unit := do
  emit (Event.cerr (Message.opencl e.what e.err))
  stop (Stop.returned (-1))

/-- What `main` makes of the result of the `try` block. -/
def finishTry : Except Stop Unit × List Event → Run
  | (Except.ok _, t) => ⟨t, some (Stop.returned 0)⟩
  | (Except.error (Stop.thrown e), t) =>
      ⟨t ++ [Event.cerr (Message.opencl e.what e.err)], some (Stop.returned (-1))⟩
  | (Except.error s, t) => ⟨t, some s⟩

/-- Index of the filter block a source line of the pipeline belongs to: lines 103-135
smoothing (with the creation of the images and of the coefficient buffer), 137-156
edge-aware smoothing, 159-176 sharpening, 179-200 noise reduction. -/
def filterOfLine (l : Nat) : Nat :=
  if l ≤ 135 then 0 else if l ≤ 156 then 1 else if l ≤ 176 then 2 else 3

/-- A run in which every step succeeds, on a 4 x 3 image. -/
def sampleEnv : Env where
  argc := 2
  argv0 := "filters"
  argv1 := "input.png"
  decoded := some ⟨4, 3⟩
  platforms := [0]
  gpuDevices := fun _ => [0]
  readFile := fun _ => some "kernels"
  status := fun _ => 0
  what := fun _ => "clError"
  buildLog := "build log"

/-- The program started without an image path. -/
def usageEnv : Env := { sampleEnv with argc := 1 }

/-- The image cannot be decoded. -/
def unreadableEnv : Env := { sampleEnv with decoded := none }

/-- The build of the kernel source fails with `CL_BUILD_PROGRAM_FAILURE`. -/
def buildFailureEnv : Env :=
  { sampleEnv with status := fun l => if l = 88 then CL_BUILD_PROGRAM_FAILURE else 0 }

/-- The first platform has no GPU device. -/
def noGpuEnv : Env := { sampleEnv with gpuDevices := fun _ => [] }

/-- Platform discovery succeeds with an empty list. -/
def noPlatformEnv : Env := { sampleEnv with platforms := [] }

/-- Every step succeeds on an image of 23171 x 23171 pixels, whose output size
2147580964 is not an `int`. -/
def hugeImageEnv : Env := { sampleEnv with decoded := some ⟨23171, 23171⟩ }

/-- The read-back of the second filter (line 146) fails. -/
def readBackFailureEnv : Env :=
  { sampleEnv with status := fun l => if l = 146 then -5 else 0 }

/-! ## Theorems -/

/-! ### Arithmetic in `int` -/

theorem intValue_eq_some (x : Int) (h0 : INT_MIN ≤ x) (h1 : x ≤ INT_MAX) :
    intValue x = some x := by
  unfold intValue
  rw [if_pos ⟨h0, h1⟩]

theorem intValue_some (x y : Int) (h : intValue x = some y) : y = x := by
  unfold intValue at h
  split at h
  · simpa using h.symm
  · simp at h

theorem writeIndexInt_some (kernelSize halfSize i j idx : Int)
    (h : writeIndexInt kernelSize halfSize i j = some idx) :
    idx = writeIndex kernelSize halfSize i j := by
  unfold writeIndexInt at h
  simp only [Option.bind_eq_bind, Option.bind_eq_some] at h
  obtain ⟨row, hrow, rowStart, hrs, col, hcol, hidx⟩ := h
  rw [intValue_some _ _ hidx, intValue_some _ _ hrs, intValue_some _ _ hrow,
    intValue_some _ _ hcol]
  rfl

theorem half_le_of_fits (H : ℕ) (hfit : (2 * (H : Int) + 1) * (2 * H + 1) ≤ INT_MAX) :
    (H : Int) ≤ 23169 := by
  unfold INT_MAX at hfit
  by_contra hgt
  have h1 : (23170 : Int) ≤ H := by omega
  nlinarith

theorem writeIndexInt_odd (H : ℕ) (hfit : (2 * (H : Int) + 1) * (2 * H + 1) ≤ INT_MAX)
    (i j : Int) (hi0 : -(H : Int) ≤ i) (hi1 : i ≤ H) (hj0 : -(H : Int) ≤ j) (hj1 : j ≤ H) :
    writeIndexInt (2 * H + 1) H i j = some (writeIndex (2 * H + 1) H i j) := by
  have hH := half_le_of_fits H hfit
  have hk : (0 : Int) < 2 * H + 1 := by positivity
  have hrow0 : 0 ≤ (i + H) * (2 * (H : Int) + 1) := mul_nonneg (by omega) (le_of_lt hk)
  have hrow1 : (i + H) * (2 * (H : Int) + 1) ≤ (2 * H) * (2 * (H : Int) + 1) :=
    mul_le_mul_of_nonneg_right (by omega) (le_of_lt hk)
  have hlast : (2 * (H : Int)) * (2 * H + 1) + 2 * H < (2 * H + 1) * (2 * H + 1) := by
    nlinarith
  unfold writeIndexInt writeIndex
  unfold INT_MAX at hfit
  rw [intValue_eq_some (i + H) (by unfold INT_MIN; omega) (by unfold INT_MAX; omega)]
  simp only [Option.bind_eq_bind, Option.some_bind]
  rw [intValue_eq_some ((i + H) * (2 * H + 1)) (by unfold INT_MIN; omega)
    (by unfold INT_MAX; omega)]
  simp only [Option.some_bind]
  rw [intValue_eq_some (j + H) (by unfold INT_MIN; omega) (by unfold INT_MAX; omega)]
  simp only [Option.some_bind]
  rw [intValue_eq_some _ (by unfold INT_MIN; omega) (by unfold INT_MAX; omega)]

theorem exponentInt_eq (i j : Int) (hi0 : -23169 ≤ i) (hi1 : i ≤ 23169) (hj0 : -23169 ≤ j)
    (hj1 : j ≤ 23169) : exponentInt i j = some (-(i * i + j * j)) := by
  have hii0 : 0 ≤ i * i := mul_self_nonneg i
  have hjj0 : 0 ≤ j * j := mul_self_nonneg j
  have hii1 : i * i ≤ 536802561 := by nlinarith
  have hjj1 : j * j ≤ 536802561 := by nlinarith
  unfold exponentInt
  rw [intValue_eq_some (i * i) (by unfold INT_MIN; omega) (by unfold INT_MAX; omega)]
  simp only [Option.bind_eq_bind, Option.some_bind]
  rw [intValue_eq_some (j * j) (by unfold INT_MIN; omega) (by unfold INT_MAX; omega)]
  simp only [Option.some_bind]
  rw [intValue_eq_some (i * i + j * j) (by unfold INT_MIN; omega) (by unfold INT_MAX; omega)]
  simp only [Option.some_bind]
  rw [intValue_eq_some _ (by unfold INT_MIN; omega) (by unfold INT_MAX; omega)]

theorem kernelStep_some [Add α] [Mul α] [Div α] [IntCast α] (exp : α → α)
    (kernelSize halfSize : Int) (sigma : α) (i j : Int) (st st' : Array α × α)
    (h : kernelStep exp kernelSize halfSize sigma i j st = some st') :
    ∃ v, vecWrite st.1 (writeIndex kernelSize halfSize i j) v = some st'.1 := by
  unfold kernelStep at h
  simp only [Option.bind_eq_bind, Option.bind_eq_some, Option.pure_def, Option.some.injEq] at h
  obtain ⟨e, _, idx, hidx, kernel, hw, hst⟩ := h
  rw [writeIndexInt_some _ _ _ _ _ hidx] at hw
  exact ⟨_, by rw [hw, ← hst]⟩

theorem kernelStep_odd [Add α] [Mul α] [Div α] [IntCast α] (exp : α → α) (sigma : α) (H : ℕ)
    (hfit : (2 * (H : Int) + 1) * (2 * H + 1) ≤ INT_MAX)
    (i j : Int) (hi0 : -(H : Int) ≤ i) (hi1 : i ≤ H) (hj0 : -(H : Int) ≤ j) (hj1 : j ≤ H)
    (st : Array α × α) :
    kernelStep exp (2 * H + 1) H sigma i j st =
      (vecWrite st.1 (writeIndex (2 * H + 1) H i j) (gaussianValue exp sigma i j)).map
        (fun kernel => (kernel, st.2 + gaussianValue exp sigma i j)) := by
  have hH := half_le_of_fits H hfit
  unfold kernelStep
  rw [exponentInt_eq i j (by omega) (by omega) (by omega) (by omega),
    writeIndexInt_odd H hfit i j hi0 hi1 hj0 hj1]
  simp only [Option.bind_eq_bind, Option.some_bind]
  unfold gaussianValue
  generalize vecWrite st.1 (writeIndex (2 * H + 1) H i j) _ = w
  cases w <;> rfl

/-! ### Loops and indices of `generateGaussianKernel` -/

/-- Invariant rule for `forLoop`: an invariant every iteration re-establishes holds at the
end, and the loop has a result. -/
theorem forLoop_inv {σ : Type} (P : Int → σ → Prop) (body : Int → σ → Option σ) (hi : Int)
    (hstep : ∀ i s, i ≤ hi → P i s → ∃ s', body i s = some s' ∧ P (i + 1) s') :
    ∀ (n : ℕ) (lo : Int) (s : σ), lo + n = hi + 1 → P lo s →
      ∃ s', forLoop lo hi body s = some s' ∧ P (hi + 1) s' := by
  intro n
  induction n with
  | zero =>
    intro lo s hlo hP
    have h1 : lo = hi + 1 := by simpa using hlo
    subst h1
    refine ⟨s, ?_, hP⟩
    rw [forLoop]
    simp
  | succ n ih =>
    intro lo s hlo hP
    have hle : lo ≤ hi := by push_cast at hlo; omega
    obtain ⟨s1, hb, hP1⟩ := hstep lo s hle hP
    obtain ⟨s2, hf, hP2⟩ := ih (lo + 1) s1 (by push_cast at hlo; omega) hP1
    refine ⟨s2, ?_, hP2⟩
    rw [forLoop]
    simp [hle, hb, hf]

theorem getElem?_setD_of_lt (a : Array α) (i j : ℕ) (x : α) (hi : i < a.size) :
    (a.setD i x)[j]? = if i = j then some x else a[j]? := by
  by_cases hij : i = j
  · subst hij
    simp [Array.getElem?_setD_eq a hi]
  · simp [Array.setD, hi, hij]

theorem writeIndex_inj (H : ℕ) (a b i j : Int) (hb0 : -(H : Int) ≤ b) (hb1 : b ≤ H)
    (hj0 : -(H : Int) ≤ j) (hj1 : j ≤ H)
    (h : writeIndex (2 * H + 1) H a b = writeIndex (2 * H + 1) H i j) : a = i ∧ b = j := by
  unfold writeIndex at h
  have hk : (0 : Int) < 2 * H + 1 := by positivity
  have h1 : (a - i) * (2 * (H : Int) + 1) = j - b := by linarith
  have h2 : a = i := by
    by_contra hne
    rcases lt_or_gt_of_ne hne with hlt | hgt
    · have : (a - i) * (2 * (H : Int) + 1) ≤ (-1) * (2 * (H : Int) + 1) :=
        mul_le_mul_of_nonneg_right (by omega) (le_of_lt hk)
      omega
    · have : 1 * (2 * (H : Int) + 1) ≤ (a - i) * (2 * (H : Int) + 1) :=
        mul_le_mul_of_nonneg_right (by omega) (le_of_lt hk)
      omega
  subst h2
  simp at h1
  exact ⟨rfl, by omega⟩

theorem writeIndex_bounds (H : ℕ) (i j : Int) (hi0 : -(H : Int) ≤ i) (hi1 : i ≤ H)
    (hj0 : -(H : Int) ≤ j) (hj1 : j ≤ H) :
    0 ≤ writeIndex (2 * H + 1) H i j ∧
      writeIndex (2 * H + 1) H i j < (2 * (H : Int) + 1) * (2 * H + 1) := by
  unfold writeIndex
  have hk : (0 : Int) < 2 * H + 1 := by positivity
  constructor
  · have : 0 ≤ (i + H) * (2 * (H : Int) + 1) := mul_nonneg (by omega) (le_of_lt hk)
    omega
  · have : (i + H) * (2 * (H : Int) + 1) ≤ (2 * H) * (2 * (H : Int) + 1) :=
      mul_le_mul_of_nonneg_right (by omega) (le_of_lt hk)
    nlinarith

theorem tdiv_odd (H : ℕ) : Int.tdiv (2 * (H : Int) + 1) 2 = H := by
  rw [Int.tdiv_eq_ediv (by positivity) (by norm_num)]
  omega

theorem inner_write [Add α] [Mul α] [Div α] [IntCast α] (exp : α → α) (sigma : α) (H : ℕ)
    (Q : Int → Int → α → Prop)
    (hQstep : ∀ i j s, Q i j s → Q i (j + 1) (s + gaussianValue exp sigma i j))
    (i : Int) (hi0 : -(H : Int) ≤ i) (hi1 : i ≤ H) (j : Int) (st : Array α × α) (hj : j ≤ H)
    (hP : innerInv exp sigma H Q i j st) :
    ∃ s', (vecWrite st.1 (writeIndex (2 * H + 1) H i j) (gaussianValue exp sigma i j)).map
        (fun kernel => (kernel, st.2 + gaussianValue exp sigma i j)) = some s' ∧
      innerInv exp sigma H Q i (j + 1) s' := by
  obtain ⟨hj0, _, hsz, hent, hQ⟩ := hP
  obtain ⟨hb0, hb1⟩ := writeIndex_bounds H i j hi0 hi1 hj0 hj
  have hlt : (writeIndex (2 * H + 1) H i j).toNat < st.1.size := by
    rw [hsz]; zify; rw [Int.toNat_of_nonneg hb0]; exact hb1
  have hw : vecWrite st.1 (writeIndex (2 * H + 1) H i j) (gaussianValue exp sigma i j) =
      some (st.1.setD (writeIndex (2 * H + 1) H i j).toNat (gaussianValue exp sigma i j)) := by
    unfold vecWrite
    rw [if_pos]
    refine ⟨hb0, ?_⟩
    rw [hsz]; push_cast; exact hb1
  refine ⟨_, by rw [hw]; rfl, by omega, by omega, by simpa using hsz, ?_, hQstep i j _ hQ⟩
  intro a b ha0 ha1 hb0' hb1' hab
  simp only [getElem?_setD_of_lt _ _ _ _ hlt]
  by_cases heq : (writeIndex (2 * H + 1) H i j).toNat = (writeIndex (2 * H + 1) H a b).toNat
  · have hab0 := (writeIndex_bounds H a b ha0 ha1 hb0' hb1').1
    have heq' : writeIndex (2 * H + 1) H a b = writeIndex (2 * H + 1) H i j := by
      have := congrArg (fun n : ℕ => (n : Int)) heq
      simp only [Int.toNat_of_nonneg hb0, Int.toNat_of_nonneg hab0] at this
      exact this.symm
    obtain ⟨h1, h2⟩ := writeIndex_inj H a b i j hb0' hb1' hj0 hj heq'
    subst h1; subst h2
    simp
  · rw [if_neg heq]
    apply hent a b ha0 ha1 hb0' hb1'
    rcases hab with h | ⟨h1, h2⟩
    · exact Or.inl h
    · subst h1
      rcases lt_or_eq_of_le (Int.lt_add_one_iff.mp h2) with h3 | h3
      · exact Or.inr ⟨rfl, h3⟩
      · subst h3; exact absurd rfl heq

theorem inner_step [Add α] [Mul α] [Div α] [IntCast α] (exp : α → α) (sigma : α) (H : ℕ)
    (hfit : (2 * (H : Int) + 1) * (2 * H + 1) ≤ INT_MAX)
    (Q : Int → Int → α → Prop)
    (hQstep : ∀ i j s, Q i j s → Q i (j + 1) (s + gaussianValue exp sigma i j))
    (i : Int) (hi0 : -(H : Int) ≤ i) (hi1 : i ≤ H) (j : Int) (st : Array α × α) (hj : j ≤ H)
    (hP : innerInv exp sigma H Q i j st) :
    ∃ s', kernelStep exp (2 * H + 1) H sigma i j st = some s' ∧
      innerInv exp sigma H Q i (j + 1) s' := by
  rw [kernelStep_odd exp sigma H hfit i j hi0 hi1 hP.1 hj st]
  exact inner_write exp sigma H Q hQstep i hi0 hi1 j st hj hP

/-- The loops of `generateGaussianKernel` for an odd size `2 * H + 1` whose square is an
`int`: the function returns, every offset pair has its value at its index, and the running
sum satisfies any invariant `Q` the iterations maintain. -/
theorem generateGaussianKernel_odd [Zero α] [Add α] [Mul α] [Div α] [IntCast α]
    (exp : α → α) (sigma : α) (H : ℕ)
    (hfit : (2 * (H : Int) + 1) * (2 * H + 1) ≤ INT_MAX)
    (Q : Int → Int → α → Prop)
    (hQ0 : Q (-(H : Int)) (-(H : Int)) 0)
    (hQstep : ∀ i j s, Q i j s → Q i (j + 1) (s + gaussianValue exp sigma i j))
    (hQrow : ∀ i s, Q i (H + 1) s → Q (i + 1) (-(H : Int)) s) :
    ∃ (kernel : Array α) (sum : α),
      generateGaussianKernel exp (2 * H + 1) sigma
          = some (kernel.map (fun value => value / sum)) ∧
      kernel.size = (2 * H + 1) * (2 * H + 1) ∧
      (∀ a b : Int, -(H : Int) ≤ a → a ≤ H → -(H : Int) ≤ b → b ≤ H →
        kernel[(writeIndex (2 * H + 1) H a b).toNat]? = some (gaussianValue exp sigma a b)) ∧
      Q (H + 1) (-(H : Int)) sum := by
  unfold generateGaussianKernel
  rw [intValue_eq_some _ (by
    have := mul_self_nonneg (2 * (H : Int) + 1)
    unfold INT_MIN
    omega) hfit]
  simp only [Option.bind_eq_bind, Option.some_bind, tdiv_odd]
  have houter := forLoop_inv (outerInv exp sigma H Q)
    (fun i st => forLoop (-(H : Int)) H (fun j st =>
        kernelStep exp (2 * H + 1) H sigma i j st) st) H
    (by
      intro i st hi hO
      obtain ⟨hi0, _, hsz, hent, hQ⟩ := hO
      have hinner := forLoop_inv (innerInv exp sigma H Q i)
        (fun j st => kernelStep exp (2 * H + 1) H sigma i j st) H
        (fun j st hj hP => inner_step exp sigma H hfit Q hQstep i hi0 hi j st hj hP)
        (2 * H + 1) (-(H : Int)) st (by push_cast; ring)
        ⟨le_refl _, by omega, hsz, fun a b ha0 ha1 hb0 hb1 hab =>
          hent a b ha0 ha1 hb0 hb1 (by omega), hQ⟩
      obtain ⟨s', hs', _, _, hsz', hent', hQ'⟩ := hinner
      refine ⟨s', hs', by omega, by omega, hsz', ?_, hQrow i _ hQ'⟩
      intro a b ha0 ha1 hb0 hb1 hab
      exact hent' a b ha0 ha1 hb0 hb1 (by omega))
    (2 * H + 1) (-(H : Int)) (mkArray ((2 * (H : Int) + 1) * (2 * H + 1)).toNat 0, 0)
    (by push_cast; ring)
    ⟨le_refl _, by omega, by
      simp only [Array.size_mkArray]
      zify
      rw [Int.toNat_of_nonneg (by positivity)], fun a b ha0 ha1 _ _ hab => by omega, hQ0⟩
  obtain ⟨st, hst, _, _, hsz, hent, hQ⟩ := houter
  refine ⟨st.1, st.2, ?_, hsz, fun a b ha0 ha1 hb0 hb1 => hent a b ha0 ha1 hb0 hb1 (by omega), hQ⟩
  rw [hst]
  rfl

/-- Entries addressed by offsets, re-addressed by their row-major position. -/
theorem entries_by_position (H : ℕ) (kernel : Array α) (v : Int → Int → α)
    (hent : ∀ a b : Int, -(H : Int) ≤ a → a ≤ H → -(H : Int) ≤ b → b ≤ H →
      kernel[(writeIndex (2 * H + 1) H a b).toNat]? = some (v a b))
    (n : ℕ) (hn : n < (2 * H + 1) * (2 * H + 1)) :
    kernel[n]? = some (v (((n / (2 * H + 1) : ℕ) : Int) - H) (((n % (2 * H + 1) : ℕ) : Int) - H)) := by
  have hr : n / (2 * H + 1) < 2 * H + 1 := Nat.div_lt_of_lt_mul hn
  have hc : n % (2 * H + 1) < 2 * H + 1 := Nat.mod_lt _ (by omega)
  have hn' : (n : Int) = ((n / (2 * H + 1) : ℕ) : Int) * (2 * H + 1) + ((n % (2 * H + 1) : ℕ) : Int) := by
    have := Nat.div_add_mod' n (2 * H + 1)
    exact_mod_cast this.symm
  have hr' : ((n / (2 * H + 1) : ℕ) : Int) < 2 * H + 1 := by exact_mod_cast hr
  have hc' : ((n % (2 * H + 1) : ℕ) : Int) < 2 * H + 1 := by exact_mod_cast hc
  have hr0 : (0 : Int) ≤ ((n / (2 * H + 1) : ℕ) : Int) := Int.natCast_nonneg _
  have hc0 : (0 : Int) ≤ ((n % (2 * H + 1) : ℕ) : Int) := Int.natCast_nonneg _
  generalize ((n / (2 * H + 1) : ℕ) : Int) = r at *
  generalize ((n % (2 * H + 1) : ℕ) : Int) = c at *
  have h := hent (r - H) (c - H) (by omega) (by omega) (by omega) (by omega)
  have hidx : (writeIndex (2 * H + 1) H (r - H) (c - H)).toNat = n := by
    unfold writeIndex
    have : (r - H + H) * (2 * (H : Int) + 1) + (c - H + H) = (n : Int) := by
      rw [hn']; ring
    rw [this]; simp
  rw [hidx] at h
  exact h

/-! ### Values and sums -/

theorem gaussianValue_neg [Mul α] [Div α] [IntCast α] (exp : α → α) (sigma : α) (i j : Int) :
    gaussianValue exp sigma (-i) (-j) = gaussianValue exp sigma i j := by
  unfold gaussianValue
  rw [neg_mul_neg, neg_mul_neg]

theorem gaussianValue_real (sigma : ℝ) (i j : Int) :
    gaussianValue Real.exp sigma i j
      = Real.exp (-((i : ℝ) ^ 2 + (j : ℝ) ^ 2) / (2 * sigma ^ 2)) := by
  unfold gaussianValue
  congr 1
  push_cast
  ring

theorem int_Ico_succ (a b : Int) (h : a ≤ b) :
    Finset.Ico a (b + 1) = insert b (Finset.Ico a b) := by
  ext x
  simp only [Finset.mem_Ico, Finset.mem_insert]
  omega

theorem int_Ico_eq_Icc (a b : Int) : Finset.Ico a (b + 1) = Finset.Icc a b := by
  ext x
  simp only [Finset.mem_Ico, Finset.mem_Icc]
  omega

theorem sum_int_Ico_succ (f : Int → ℝ) (a b : Int) (h : a ≤ b) :
    ∑ x in Finset.Ico a (b + 1), f x = ∑ x in Finset.Ico a b, f x + f b := by
  rw [int_Ico_succ a b h, Finset.sum_insert (by simp), add_comm]

theorem sumInv_init (exp : ℝ → ℝ) (sigma : ℝ) (H : ℕ) :
    sumInv exp sigma H (-(H : Int)) (-(H : Int)) 0 := by
  simp [sumInv]

theorem sumInv_step (exp : ℝ → ℝ) (sigma : ℝ) (H : ℕ) (i j : Int) (s : ℝ)
    (h : sumInv exp sigma H i j s) :
    sumInv exp sigma H i (j + 1) (s + gaussianValue exp sigma i j) := by
  obtain ⟨hi, hj, hs⟩ := h
  refine ⟨hi, by omega, ?_⟩
  rw [sum_int_Ico_succ _ _ _ hj, hs]
  ring

theorem sumInv_row (exp : ℝ → ℝ) (sigma : ℝ) (H : ℕ) (i : Int) (s : ℝ)
    (h : sumInv exp sigma H i (H + 1) s) :
    sumInv exp sigma H (i + 1) (-(H : Int)) s := by
  obtain ⟨hi, _, hs⟩ := h
  refine ⟨by omega, le_refl _, ?_⟩
  rw [sum_int_Ico_succ _ _ _ hi, hs, int_Ico_eq_Icc]
  simp

theorem sumInv_final (exp : ℝ → ℝ) (sigma : ℝ) (H : ℕ) (s : ℝ)
    (h : sumInv exp sigma H (H + 1) (-(H : Int)) s) :
    s = ∑ a in Finset.Icc (-(H : Int)) H, ∑ b in Finset.Icc (-(H : Int)) H,
          gaussianValue exp sigma a b := by
  obtain ⟨_, _, hs⟩ := h
  rw [hs, int_Ico_eq_Icc]
  simp

theorem sum_range_shift (H : ℕ) (f : Int → ℝ) :
    ∑ r in Finset.range (2 * H + 1), f ((r : Int) - H) = ∑ a in Finset.Icc (-(H : Int)) H, f a := by
  refine Finset.sum_nbij' (fun r : ℕ => (r : Int) - H) (fun a : Int => (a + H).toNat) ?_ ?_ ?_ ?_ ?_
  · intro r hr
    simp only [Finset.mem_range] at hr
    simp only [Finset.mem_Icc]
    omega
  · intro a ha
    simp only [Finset.mem_Icc] at ha
    simp only [Finset.mem_range]
    omega
  · intro r _
    simp
  · intro a ha
    simp only [Finset.mem_Icc] at ha
    simp only
    omega
  · intro r _
    rfl

theorem sum_range_rows (K : ℕ) (hK : 0 < K) (g : ℕ → ℕ → ℝ) (R : ℕ) :
    ∑ n in Finset.range (R * K), g (n / K) (n % K)
      = ∑ r in Finset.range R, ∑ c in Finset.range K, g r c := by
  induction R with
  | zero => simp
  | succ R ih =>
    rw [Nat.succ_mul, Finset.sum_range_add, ih, Finset.sum_range_succ]
    congr 1
    apply Finset.sum_congr rfl
    intro c hc
    simp only [Finset.mem_range] at hc
    have h1 : (R * K + c) / K = R := by
      rw [Nat.add_comm, Nat.add_mul_div_right _ _ hK, Nat.div_eq_of_lt hc, Nat.zero_add]
    have h2 : (R * K + c) % K = c := by
      rw [Nat.add_comm, Nat.add_mul_mod_self_right, Nat.mod_eq_of_lt hc]
    rw [h1, h2]

theorem sum_rowmajor (H : ℕ) (f : Int → Int → ℝ) :
    ∑ n in Finset.range ((2 * H + 1) * (2 * H + 1)),
        f (((n / (2 * H + 1) : ℕ) : Int) - H) (((n % (2 * H + 1) : ℕ) : Int) - H)
      = ∑ a in Finset.Icc (-(H : Int)) H, ∑ b in Finset.Icc (-(H : Int)) H, f a b := by
  rw [sum_range_rows (2 * H + 1) (by omega) (fun r c => f ((r : Int) - H) ((c : Int) - H))]
  rw [← sum_range_shift H (fun a => ∑ b in Finset.Icc (-(H : Int)) H, f a b)]
  apply Finset.sum_congr rfl
  intro r _
  exact sum_range_shift H (fun b => f ((r : Int) - H) b)

theorem odd_decomp (k : Int) (hodd : k % 2 = 1) (hk : 1 ≤ k) :
    ∃ H : ℕ, k = 2 * (H : Int) + 1 ∧ k / 2 = H := by
  refine ⟨(k / 2).toNat, ?_, ?_⟩ <;> omega

theorem list_sum_eq_sum_range (l : List ℝ) :
    ∀ f : ℕ → ℝ, (∀ n, n < l.length → l[n]? = some (f n)) →
      l.sum = ∑ n in Finset.range l.length, f n := by
  induction l with
  | nil => intro f _; simp
  | cons x t ih =>
    intro f h
    have h0 : x = f 0 := by simpa using h 0 (by simp)
    have ht : ∀ n, n < t.length → t[n]? = some (f (n + 1)) := by
      intro n hn
      simpa using h (n + 1) (by simpa using hn)
    rw [List.sum_cons, List.length_cons, Finset.sum_range_succ', ih (fun n => f (n + 1)) ht, h0]
    ring

theorem offsetsBelow_succ (H : ℕ) (x : Int) (hx : -(H : Int) ≤ x) :
    offsetsBelow H (x + 1) = offsetsBelow H x ++ [x] := by
  unfold offsetsBelow
  have h1 : (x + 1 + H).toNat = (x + H).toNat + 1 := by omega
  rw [h1, List.range_succ, List.map_append]
  simp only [List.map_cons, List.map_nil, List.append_cancel_left_eq, List.cons.injEq, and_true]
  omega

theorem offsetsBelow_bottom (H : ℕ) : offsetsBelow H (-(H : Int)) = [] := by
  unfold offsetsBelow
  simp

theorem offsetsBelow_top (H : ℕ) : offsetsBelow H ((H : Int) + 1) = offsets H := by
  unfold offsetsBelow offsets
  have h1 : ((H : Int) + 1 + H).toNat = (2 * (H : Int) + 1).toNat := by omega
  rw [h1]

theorem foldInv_init [Zero α] [Add α] [Mul α] [Div α] [IntCast α] (exp : α → α) (sigma : α)
    (H : ℕ) : foldInv exp sigma H (-(H : Int)) (-(H : Int)) 0 := by
  refine ⟨le_refl _, le_refl _, ?_⟩
  rw [offsetsBelow_bottom]
  rfl

theorem foldInv_step [Zero α] [Add α] [Mul α] [Div α] [IntCast α] (exp : α → α) (sigma : α)
    (H : ℕ) (i j : Int) (s : α) (h : foldInv exp sigma H i j s) :
    foldInv exp sigma H i (j + 1) (s + gaussianValue exp sigma i j) := by
  obtain ⟨hi, hj, hs⟩ := h
  refine ⟨hi, by omega, ?_⟩
  rw [offsetsBelow_succ H j hj, List.foldl_append, ← hs]
  rfl

theorem foldInv_row [Zero α] [Add α] [Mul α] [Div α] [IntCast α] (exp : α → α) (sigma : α)
    (H : ℕ) (i : Int) (s : α) (h : foldInv exp sigma H i (H + 1) s) :
    foldInv exp sigma H (i + 1) (-(H : Int)) s := by
  obtain ⟨hi, _, hs⟩ := h
  refine ⟨by omega, le_refl _, ?_⟩
  rw [offsetsBelow_bottom, offsetsBelow_succ H i hi, List.foldl_append]
  rw [offsetsBelow_top] at hs
  rw [hs]
  rfl

theorem foldInv_final [Zero α] [Add α] [Mul α] [Div α] [IntCast α] (exp : α → α) (sigma : α)
    (H : ℕ) (s : α) (h : foldInv exp sigma H (H + 1) (-(H : Int)) s) :
    s = gaussianSum exp sigma H := by
  obtain ⟨_, _, hs⟩ := h
  rw [offsetsBelow_bottom, offsetsBelow_top] at hs
  exact hs

/-! ### The contract of `generateGaussianKernel` -/

/-- A size whose square is not an `int`: line 23 overflows. -/
theorem generateGaussianKernel_overflow [Zero α] [Add α] [Mul α] [Div α] [IntCast α]
    (exp : α → α) (sigma : α) (k : Int) (h : INT_MAX < k * k) :
    generateGaussianKernel exp k sigma = none := by
  unfold generateGaussianKernel intValue
  rw [if_neg (by omega)]
  rfl

/-- Characterisation of the result for an odd size `2 * H + 1` whose square is an `int`, in
the arithmetic of any carrier. -/
theorem generateGaussianKernel_spec [Zero α] [Add α] [Mul α] [Div α] [IntCast α]
    (exp : α → α) (sigma : α) (H : ℕ) (hfit : (2 * (H : Int) + 1) * (2 * H + 1) ≤ INT_MAX) :
    ∃ kernel : Array α,
      generateGaussianKernel exp (2 * H + 1) sigma
        = some (kernel.map (fun value => value / gaussianSum exp sigma H)) ∧
      kernel.size = (2 * H + 1) * (2 * H + 1) ∧
      (∀ a b : Int, -(H : Int) ≤ a → a ≤ H → -(H : Int) ≤ b → b ≤ H →
        kernel[(writeIndex (2 * H + 1) H a b).toNat]? = some (gaussianValue exp sigma a b)) := by
  obtain ⟨kernel, sum, hres, hsz, hent, hQ⟩ :=
    generateGaussianKernel_odd exp sigma H hfit (foldInv exp sigma H)
      (foldInv_init _ _ _) (foldInv_step _ _ _) (foldInv_row _ _ _)
  have hsum := foldInv_final _ _ _ _ hQ
  subst hsum
  exact ⟨kernel, hres, hsz, hent⟩

/-- Characterisation of the result over the reals for an odd size `2 * H + 1` whose square
is an `int`: the accumulated sum is the double sum over the offsets. -/
theorem generateGaussianKernel_real (sigma : ℝ) (H : ℕ)
    (hfit : (2 * (H : Int) + 1) * (2 * H + 1) ≤ INT_MAX) :
    ∃ kernel : Array ℝ,
      generateGaussianKernel Real.exp (2 * H + 1) sigma
        = some (kernel.map (fun value => value /
            ∑ a in Finset.Icc (-(H : Int)) H, ∑ b in Finset.Icc (-(H : Int)) H,
              gaussianValue Real.exp sigma a b)) ∧
      kernel.size = (2 * H + 1) * (2 * H + 1) ∧
      (∀ a b : Int, -(H : Int) ≤ a → a ≤ H → -(H : Int) ≤ b → b ≤ H →
        kernel[(writeIndex (2 * H + 1) H a b).toNat]? = some (gaussianValue Real.exp sigma a b)) := by
  obtain ⟨kernel, sum, hres, hsz, hent, hQ⟩ :=
    generateGaussianKernel_odd Real.exp sigma H hfit (sumInv Real.exp sigma H)
      (sumInv_init _ _ _) (sumInv_step _ _ _) (sumInv_row _ _ _)
  have hsum := sumInv_final _ _ _ _ hQ
  subst hsum
  exact ⟨kernel, hres, hsz, hent⟩

theorem gaussianSum_pos (sigma : ℝ) (H : ℕ) :
    0 < ∑ a in Finset.Icc (-(H : Int)) H, ∑ b in Finset.Icc (-(H : Int)) H,
      gaussianValue Real.exp sigma a b := by
  apply Finset.sum_pos
  · intro a _
    apply Finset.sum_pos
    · intro b _
      exact Real.exp_pos _
    · exact ⟨0, by simp⟩
  · exact ⟨0, by simp⟩

/-- C1, as stated, fails at the odd size 46341 (with `σ = 1`): `kernelSize * kernelSize` on
line 23 is 2147488281, which is not an `int`, and the function has no defined result. -/
theorem generateGaussianKernel_normalized_overflow :
    (46341 : Int) % 2 = 1 ∧ (1 : Int) ≤ 46341 ∧ (0 : ℝ) < 1 ∧
      INT_MAX < (46341 : Int) * 46341 ∧
      generateGaussianKernel Real.exp 46341 1 = none :=
  ⟨by decide, by decide, by norm_num, by decide,
    generateGaussianKernel_overflow Real.exp 1 46341 (by decide)⟩

/-- C1, amended: for every odd kernel size `k ≥ 1` whose square is an `int`
(`k * k ≤ INT_MAX`, that is `k ≤ 46339`) and every `σ > 0`, over exact real arithmetic
`generateGaussianKernel` returns an array of exactly `k * k` entries, every entry is
non-negative, and the entries sum to exactly `1`. -/
theorem generateGaussianKernel_normalized (k : Int) (sigma : ℝ) (hodd : k % 2 = 1) (hk : 1 ≤ k)
    (hfit : k * k ≤ INT_MAX) (_hs : 0 < sigma) :
    ∃ kernel : Array ℝ, generateGaussianKernel Real.exp k sigma = some kernel ∧
      (kernel.size : Int) = k * k ∧ (∀ x ∈ kernel.toList, 0 ≤ x) ∧ kernel.toList.sum = 1 := by
  obtain ⟨H, hkH, _⟩ := odd_decomp k hodd hk
  subst hkH
  obtain ⟨kernel, hres, hsz, hent⟩ := generateGaussianKernel_real sigma H hfit
  have hS := gaussianSum_pos sigma H
  have hpos := entries_by_position H kernel (gaussianValue Real.exp sigma) hent
  refine ⟨_, hres, ?_, ?_, ?_⟩
  · rw [Array.size_map, hsz]; push_cast; ring
  · intro x hx
    obtain ⟨n, hn⟩ := List.mem_iff_getElem?.mp hx
    rw [← Array.getElem?_eq_getElem?_toList, Array.getElem?_map] at hn
    by_cases hlt : n < (2 * H + 1) * (2 * H + 1)
    · rw [hpos n hlt] at hn
      simp only [Option.map_some', Option.some.injEq] at hn
      rw [← hn]
      exact div_nonneg (le_of_lt (Real.exp_pos _)) (le_of_lt hS)
    · have hnone : kernel[n]? = none := by
        rw [Array.getElem?_eq_getElem?_toList]
        exact List.getElem?_eq_none (by rw [Array.length_toList]; omega)
      rw [hnone] at hn
      simp at hn
  · rw [list_sum_eq_sum_range _ (fun n => gaussianValue Real.exp sigma
        (((n / (2 * H + 1) : ℕ) : Int) - H) (((n % (2 * H + 1) : ℕ) : Int) - H) /
          ∑ a in Finset.Icc (-(H : Int)) H, ∑ b in Finset.Icc (-(H : Int)) H,
            gaussianValue Real.exp sigma a b)]
    · rw [Array.length_toList, Array.size_map, hsz, ← Finset.sum_div,
        sum_rowmajor H (gaussianValue Real.exp sigma)]
      exact div_self (ne_of_gt hS)
    · intro n hn
      rw [Array.length_toList, Array.size_map, hsz] at hn
      rw [← Array.getElem?_eq_getElem?_toList, Array.getElem?_map, hpos n hn]
      rfl

/-- Instance at `k = 3`, `σ = 1`. -/
theorem generateGaussianKernel_normalized_witness :
    ∃ kernel : Array ℝ, generateGaussianKernel Real.exp 3 1 = some kernel ∧
      (kernel.size : Int) = 3 * 3 ∧ (∀ x ∈ kernel.toList, 0 ≤ x) ∧ kernel.toList.sum = 1 :=
  generateGaussianKernel_normalized 3 1 (by decide) (by decide) (by decide) (by norm_num)

/-- C2, as stated, fails at the odd size 46341 (with `σ = 1` and the offsets `(0, 0)`):
line 23 overflows `int`, no array is returned, and the index of the claim,
`23170 * 46341 + 23170`, has no entry. -/
theorem generateGaussianKernel_entry_overflow :
    (46341 : Int) % 2 = 1 ∧ (1 : Int) ≤ 46341 ∧ (0 : ℝ) < 1 ∧
      -((46341 : Int) / 2) ≤ 0 ∧ (0 : Int) ≤ 46341 / 2 ∧
      ¬ ∃ kernel : Array ℝ, generateGaussianKernel Real.exp 46341 1 = some kernel ∧
        ∃ x, kernel[(((0 : Int) + 46341 / 2) * 46341 + (0 + 46341 / 2)).toNat]? = some x := by
  refine ⟨by decide, by decide, by norm_num, by decide, by decide, ?_⟩
  rintro ⟨kernel, hres, _⟩
  rw [generateGaussianKernel_overflow Real.exp 1 46341 (by decide)] at hres
  simp at hres

/-- C2, amended: for every odd `k ≥ 1` whose square is an `int` (`k * k ≤ INT_MAX`) and all
offsets `i, j ∈ [-(k/2), k/2]`, the entry at row-major index `(i + k/2) * k + (j + k/2)` is
the value of the offsets divided by `S`. In the arithmetic of the code, on any carrier, the
value is `exp(-(i*i + j*j) / (2 * σ * σ))` and `S` is the sum of the values accumulated from
`0` over all offsets `a, b ∈ [-(k/2), k/2]` in row-major order. Read in exact real arithmetic
with `σ > 0`, the value is `exp(-(i² + j²) / (2σ²))` and `S` is the sum of
`exp(-(a² + b²) / (2σ²))` over all offsets. -/
theorem generateGaussianKernel_entry (k : Int) (hodd : k % 2 = 1) (hk : 1 ≤ k)
    (hfit : k * k ≤ INT_MAX) (i j : Int) (hi0 : -(k / 2) ≤ i) (hi1 : i ≤ k / 2)
    (hj0 : -(k / 2) ≤ j) (hj1 : j ≤ k / 2) :
    0 ≤ (i + k / 2) * k + (j + k / 2) ∧
    (∀ (β : Type) [Zero β] [Add β] [Mul β] [Div β] [IntCast β] (exp : β → β) (sigma : β),
      ∃ kernel : Array β, generateGaussianKernel exp k sigma = some kernel ∧
        kernel[((i + k / 2) * k + (j + k / 2)).toNat]? =
          some (gaussianValue exp sigma i j / gaussianSum exp sigma (k / 2))) ∧
    (∀ sigma : ℝ, 0 < sigma →
      ∃ kernel : Array ℝ, generateGaussianKernel Real.exp k sigma = some kernel ∧
        kernel[((i + k / 2) * k + (j + k / 2)).toNat]? =
          some (Real.exp (-((i : ℝ) ^ 2 + (j : ℝ) ^ 2) / (2 * sigma ^ 2)) /
            ∑ a in Finset.Icc (-(k / 2)) (k / 2), ∑ b in Finset.Icc (-(k / 2)) (k / 2),
              Real.exp (-((a : ℝ) ^ 2 + (b : ℝ) ^ 2) / (2 * sigma ^ 2)))) := by
  obtain ⟨H, hkH, hH⟩ := odd_decomp k hodd hk
  rw [hH] at hi0 hi1 hj0 hj1 ⊢
  subst hkH
  refine ⟨(writeIndex_bounds H i j hi0 hi1 hj0 hj1).1, ?_, ?_⟩
  · intro β _ _ _ _ _ exp sigma
    obtain ⟨kernel, hres, _, hent⟩ := generateGaussianKernel_spec exp sigma H hfit
    refine ⟨_, hres, ?_⟩
    have h := hent i j hi0 hi1 hj0 hj1
    unfold writeIndex at h
    rw [Array.getElem?_map, h]
    rfl
  · intro sigma _
    obtain ⟨kernel, hres, _, hent⟩ := generateGaussianKernel_real sigma H hfit
    refine ⟨_, hres, ?_⟩
    have h := hent i j hi0 hi1 hj0 hj1
    unfold writeIndex at h
    rw [Array.getElem?_map, h]
    simp only [Option.map_some', gaussianValue_real]

/-- Instance at `k = 3` and the offsets `(1, -1)`, over the reals with `σ = 1`. -/
theorem generateGaussianKernel_entry_witness :
    ∃ kernel : Array ℝ, generateGaussianKernel Real.exp 3 1 = some kernel ∧
      kernel[(((1 : Int) + 3 / 2) * 3 + (-1 + 3 / 2)).toNat]? =
        some (Real.exp (-(((1 : Int) : ℝ) ^ 2 + (((-1 : Int)) : ℝ) ^ 2) / (2 * (1 : ℝ) ^ 2)) /
          ∑ a in Finset.Icc (-((3 : Int) / 2)) (3 / 2),
            ∑ b in Finset.Icc (-((3 : Int) / 2)) (3 / 2),
              Real.exp (-((a : ℝ) ^ 2 + (b : ℝ) ^ 2) / (2 * (1 : ℝ) ^ 2))) :=
  (generateGaussianKernel_entry 3 (by decide) (by decide) (by decide) 1 (-1)
    (by decide) (by decide) (by decide) (by decide)).2.2 1 (by norm_num)

theorem rotated_position (K n : ℕ) (hn : n < K * K) :
    (K * K - 1 - n) / K = K - 1 - n / K ∧ (K * K - 1 - n) % K = K - 1 - n % K := by
  have hK : 0 < K := by
    rcases Nat.eq_zero_or_pos K with h | h
    · subst h; simp at hn
    · exact h
  have hr : n / K < K := Nat.div_lt_of_lt_mul hn
  have hc : n % K < K := Nat.mod_lt _ hK
  have hdm : K * (n / K) + n % K = n := Nat.div_add_mod n K
  rw [Nat.div_mod_unique hK]
  refine ⟨?_, by omega⟩
  obtain ⟨m, hm⟩ : ∃ m, n / K + m + 1 = K := ⟨K - 1 - n / K, by omega⟩
  have hKK : K * K = K * (n / K) + K * m + K := by
    calc K * K = K * (n / K + m + 1) := by rw [hm]
      _ = K * (n / K) + K * m + K := by ring
  have hm' : K - 1 - n / K = m := by omega
  rw [hm']
  generalize n / K = r at *
  generalize n % K = c at *
  generalize K * r = x at *
  generalize K * m = y at *
  generalize K * K = z at *
  omega

/-- C3, as stated, fails at the odd size 46341 (with `σ = 1`): line 23 overflows `int` and
no array is returned whose entries could be compared. -/
theorem generateGaussianKernel_rotation_overflow :
    (46341 : Int) % 2 = 1 ∧ (1 : Int) ≤ 46341 ∧ (0 : ℝ) < 1 ∧
      ¬ ∃ kernel : Array ℝ, generateGaussianKernel Real.exp 46341 1 = some kernel ∧
        ∀ n : ℕ, (n : Int) < 46341 * 46341 →
          ∃ x : ℝ, kernel[n]? = some x ∧ kernel[((46341 : Int) * 46341).toNat - 1 - n]? = some x := by
  refine ⟨by decide, by decide, by norm_num, ?_⟩
  rintro ⟨kernel, hres, _⟩
  rw [generateGaussianKernel_overflow Real.exp 1 46341 (by decide)] at hres
  simp at hres

/-- C3, amended: for every odd `k ≥ 1` whose square is an `int` (`k * k ≤ INT_MAX`) the
output is symmetric under a 180° rotation of indices: the entry at position `n` equals the
entry at position `k * k - 1 - n`, for every `0 ≤ n < k * k`. It holds for every arithmetic
carrier, exponential and `σ`, so in particular for `σ > 0`. -/
theorem generateGaussianKernel_rotation_symmetric [Zero α] [Add α] [Mul α] [Div α] [IntCast α]
    (exp : α → α) (k : Int) (sigma : α) (hodd : k % 2 = 1) (hk : 1 ≤ k)
    (hfit : k * k ≤ INT_MAX) :
    ∃ kernel : Array α, generateGaussianKernel exp k sigma = some kernel ∧
      (kernel.size : Int) = k * k ∧
      ∀ n : ℕ, (n : Int) < k * k →
        ∃ x : α, kernel[n]? = some x ∧ kernel[(k * k).toNat - 1 - n]? = some x := by
  obtain ⟨H, hkH, _⟩ := odd_decomp k hodd hk
  subst hkH
  obtain ⟨kernel, sum, hres, hsz, hent, _⟩ :=
    generateGaussianKernel_odd exp sigma H hfit (fun _ _ _ => True) trivial
      (fun _ _ _ _ => trivial) (fun _ _ _ => trivial)
  have hpos := entries_by_position H kernel (gaussianValue exp sigma) hent
  refine ⟨_, hres, by rw [Array.size_map, hsz]; push_cast; ring, ?_⟩
  intro n hn
  have hKK : ((2 * (H : Int) + 1) * (2 * H + 1)).toNat = (2 * H + 1) * (2 * H + 1) := by
    zify
    rw [Int.toNat_of_nonneg (by positivity)]
  have hn' : n < (2 * H + 1) * (2 * H + 1) := by exact_mod_cast hn
  rw [hKK]
  obtain ⟨hd, hm⟩ := rotated_position (2 * H + 1) n hn'
  have hr : n / (2 * H + 1) < 2 * H + 1 := Nat.div_lt_of_lt_mul hn'
  have hc : n % (2 * H + 1) < 2 * H + 1 := Nat.mod_lt _ (by omega)
  refine ⟨_, by rw [Array.getElem?_map, hpos n hn']; rfl, ?_⟩
  rw [Array.getElem?_map, hpos _ (by omega), hd, hm]
  have e1 : ((2 * H + 1 - 1 - n / (2 * H + 1) : ℕ) : Int) - H
      = -(((n / (2 * H + 1) : ℕ) : Int) - H) := by omega
  have e2 : ((2 * H + 1 - 1 - n % (2 * H + 1) : ℕ) : Int) - H
      = -(((n % (2 * H + 1) : ℕ) : Int) - H) := by omega
  rw [e1, e2, gaussianValue_neg]
  rfl

/-- Instance over the reals at `k = 3`, `σ = 1`. -/
theorem generateGaussianKernel_rotation_symmetric_witness :
    ∃ kernel : Array ℝ, generateGaussianKernel Real.exp 3 1 = some kernel ∧
      (kernel.size : Int) = 3 * 3 ∧
      ∀ n : ℕ, (n : Int) < 3 * 3 →
        ∃ x : ℝ, kernel[n]? = some x ∧ kernel[((3 : Int) * 3).toNat - 1 - n]? = some x :=
  generateGaussianKernel_rotation_symmetric Real.exp 3 1 (by decide) (by decide) (by decide)

/-! ### Even sizes -/

/-- The last iteration of a loop that runs at least once. -/
theorem forLoop_last {σ : Type} (body : Int → σ → Option σ) (hi : Int) :
    ∀ (n : ℕ) (lo : Int) (s : σ), lo + n = hi →
      forLoop lo hi body s = (forLoop lo (hi - 1) body s).bind (body hi) := by
  intro n
  induction n with
  | zero =>
    intro lo s hlo
    have h1 : lo = hi := by simpa using hlo
    subst h1
    have hdone : forLoop (lo + 1) lo body = some := by
      funext x
      rw [forLoop]
      simp
    rw [forLoop, hdone]
    conv_rhs => rw [forLoop]
    simp
  | succ n ih =>
    intro lo s hlo
    have hle : lo ≤ hi - 1 := by push_cast at hlo; omega
    have hle' : lo ≤ hi := by omega
    rw [forLoop, if_pos hle']
    conv_rhs => rw [forLoop, if_pos hle]
    rw [Option.bind_assoc]
    congr 1
    funext s1
    exact ih (lo + 1) s1 (by push_cast at hlo; omega)

/-- A property every iteration preserves holds of the result of the loop, if there is one. -/
theorem forLoop_preserves {σ : Type} (P : σ → Prop) (body : Int → σ → Option σ) (hi : Int)
    (hstep : ∀ i s s', P s → body i s = some s' → P s') :
    ∀ (n : ℕ) (lo : Int) (s s' : σ), hi + 1 - lo ≤ n → P s →
      forLoop lo hi body s = some s' → P s' := by
  intro n
  induction n with
  | zero =>
    intro lo s s' hlo hP h
    rw [forLoop, if_neg (by omega)] at h
    simp only [Option.some.injEq] at h
    exact h ▸ hP
  | succ n ih =>
    intro lo s s' hlo hP h
    rw [forLoop] at h
    by_cases hle : lo ≤ hi
    · rw [if_pos hle] at h
      cases hb : body lo s with
      | none => rw [hb] at h; simp at h
      | some s1 =>
        rw [hb] at h
        exact ih (lo + 1) s1 s' (by push_cast at hlo; omega) (hstep lo s s1 hP hb) h
    · rw [if_neg hle] at h
      simp only [Option.some.injEq] at h
      exact h ▸ hP

theorem tdiv_even (h : ℕ) : Int.tdiv (2 * (h : Int)) 2 = h := by
  rw [Int.tdiv_eq_ediv (by positivity) (by norm_num)]
  omega

theorem vecWrite_size (v w : Array α) (idx : Int) (x : α) (h : vecWrite v idx x = some w) :
    w.size = v.size := by
  unfold vecWrite at h
  split at h
  · simp only [Option.some.injEq] at h
    rw [← h, Array.size_setD]
  · simp at h

theorem writeIndex_last_even (h : ℕ) :
    writeIndex (2 * h) h h h = (2 * (h : Int)) * (2 * h) + 2 * h := by
  unfold writeIndex
  ring

/-- For an even size the last iteration of the loops has no defined result: when the run
gets there the index is `k * k + k`, past the end of the vector. -/
theorem generateGaussianKernel_even [Zero α] [Add α] [Mul α] [Div α] [IntCast α]
    (exp : α → α) (sigma : α) (h : ℕ) :
    generateGaussianKernel exp (2 * h) sigma = none := by
  unfold generateGaussianKernel
  cases hsize : intValue ((2 * (h : Int)) * (2 * h)) with
  | none => rfl
  | some size =>
    have hsz := intValue_some _ _ hsize
    subst hsz
    simp only [Option.bind_eq_bind, Option.some_bind, tdiv_even]
    have hstepP : ∀ (i j : Int) (s s' : Array α × α),
        s.1.size = ((2 * (h : Int)) * (2 * h)).toNat →
        kernelStep exp (2 * h) h sigma i j s = some s' →
        s'.1.size = ((2 * (h : Int)) * (2 * h)).toNat := by
      intro i j s s' hs hb
      obtain ⟨v, hv⟩ := kernelStep_some exp _ _ sigma i j s s' hb
      rw [vecWrite_size _ _ _ _ hv, hs]
    have hinnerP : ∀ (i : Int) (st st' : Array α × α),
        st.1.size = ((2 * (h : Int)) * (2 * h)).toNat →
        forLoop (-(h : Int)) h (fun j st => kernelStep exp (2 * h) h sigma i j st) st
          = some st' →
        st'.1.size = ((2 * (h : Int)) * (2 * h)).toNat := by
      intro i st st' hP hrun
      exact forLoop_preserves
        (fun s : Array α × α => s.1.size = ((2 * (h : Int)) * (2 * h)).toNat)
        _ h (fun j s s' hs hb => hstepP i j s s' hs hb) (2 * h + 1) (-(h : Int)) st st'
        (by push_cast; omega) hP hrun
    rw [forLoop_last _ h (2 * h) (-(h : Int)) _ (by push_cast; ring)]
    cases hout : forLoop (-(h : Int)) (h - 1) (fun i st =>
        forLoop (-(h : Int)) h (fun j st => kernelStep exp (2 * h) h sigma i j st) st)
        (mkArray ((2 * (h : Int)) * (2 * h)).toNat 0, 0) with
    | none => rfl
    | some st =>
      have hP : st.1.size = ((2 * (h : Int)) * (2 * h)).toNat :=
        forLoop_preserves (fun s : Array α × α => s.1.size = ((2 * (h : Int)) * (2 * h)).toNat)
          _ (h - 1) (fun i s s' hs hb => hinnerP i s s' hs hb) (2 * h) (-(h : Int)) _ st
          (by push_cast; omega) (by simp) hout
      simp only [Option.some_bind]
      rw [forLoop_last _ h (2 * h) (-(h : Int)) _ (by push_cast; ring)]
      cases hin : forLoop (-(h : Int)) (h - 1)
          (fun j st => kernelStep exp (2 * h) h sigma h j st) st with
      | none => rfl
      | some st' =>
        have hP' : st'.1.size = ((2 * (h : Int)) * (2 * h)).toNat :=
          forLoop_preserves
            (fun s : Array α × α => s.1.size = ((2 * (h : Int)) * (2 * h)).toNat)
            _ (h - 1) (fun j s s' hs hb => hstepP h j s s' hs hb) (2 * h) (-(h : Int)) st st'
            (by push_cast; omega) hP hin
        simp only [Option.some_bind]
        cases hlast : kernelStep exp (2 * h) h sigma h h st' with
        | none => rfl
        | some st'' =>
          exfalso
          obtain ⟨v, hv⟩ := kernelStep_some exp _ _ sigma h h st' st'' hlast
          unfold vecWrite at hv
          rw [if_neg] at hv
          · simp at hv
          · rw [hP', writeIndex_last_even, Int.toNat_of_nonneg (by positivity)]
            omega

theorem writeIndex_unique (H : ℕ) (n : Int) (h0 : 0 ≤ n) (h1 : n < (2 * (H : Int) + 1) * (2 * H + 1)) :
    ∃! p : Int × Int, (-(H : Int) ≤ p.1 ∧ p.1 ≤ H ∧ -(H : Int) ≤ p.2 ∧ p.2 ≤ H) ∧
      writeIndex (2 * H + 1) H p.1 p.2 = n := by
  have hk : (0 : Int) < 2 * H + 1 := by positivity
  have hdm : (2 * (H : Int) + 1) * (n / (2 * H + 1)) + n % (2 * H + 1) = n := Int.ediv_add_emod n _
  have hm0 : 0 ≤ n % (2 * (H : Int) + 1) := Int.emod_nonneg _ (ne_of_gt hk)
  have hm1 : n % (2 * (H : Int) + 1) < 2 * H + 1 := Int.emod_lt_of_pos _ hk
  have hd0 : 0 ≤ n / (2 * (H : Int) + 1) := Int.ediv_nonneg h0 (le_of_lt hk)
  have hd1 : n / (2 * (H : Int) + 1) < 2 * H + 1 := Int.ediv_lt_of_lt_mul hk h1
  refine ⟨(n / (2 * H + 1) - H, n % (2 * H + 1) - H), ⟨⟨by omega, by omega, by omega, by omega⟩, ?_⟩, ?_⟩
  · unfold writeIndex
    simp only [sub_add_cancel]
    rw [mul_comm]
    exact hdm
  · rintro ⟨a, b⟩ ⟨⟨ha0, ha1, hb0, hb1⟩, hab⟩
    simp only at ha0 ha1 hb0 hb1 hab
    have hw : writeIndex (2 * H + 1) H (n / (2 * H + 1) - H) (n % (2 * H + 1) - H) = n := by
      unfold writeIndex
      simp only [sub_add_cancel]
      rw [mul_comm]
      exact hdm
    obtain ⟨e1, e2⟩ := writeIndex_inj H a b _ _ hb0 hb1 (by omega) (by omega) (hab.trans hw.symm)
    rw [e1, e2]

theorem even_le_of_fits (h : ℕ) (hfit : (2 * (h : Int)) * (2 * h) ≤ INT_MAX) :
    (h : Int) ≤ 23170 := by
  unfold INT_MAX at hfit
  by_contra hgt
  have h1 : (23171 : Int) ≤ h := by omega
  nlinarith

theorem writeIndexInt_last_even (h : ℕ) (hfit : (2 * (h : Int)) * (2 * h) ≤ INT_MAX) :
    writeIndexInt (2 * h) h h h = some ((2 * (h : Int)) * (2 * h) + 2 * h) := by
  have hh := even_le_of_fits h hfit
  have h0 : (0 : Int) ≤ h := Int.natCast_nonneg h
  have hsq : (2 * (h : Int)) * (2 * h) ≤ 2147395600 := by nlinarith
  have hsq0 : 0 ≤ (2 * (h : Int)) * (2 * h) := by positivity
  have e1 : (h : Int) + h = 2 * h := by ring
  unfold writeIndexInt
  rw [e1, intValue_eq_some (2 * (h : Int)) (by unfold INT_MIN; omega) (by unfold INT_MAX; omega)]
  simp only [Option.bind_eq_bind, Option.some_bind]
  rw [intValue_eq_some ((2 * (h : Int)) * (2 * h)) (by unfold INT_MIN; omega)
    (by unfold INT_MAX; omega)]
  simp only [Option.some_bind]
  rw [intValue_eq_some _ (by unfold INT_MIN; omega) (by unfold INT_MAX; omega)]

/-- C10, as stated, fails at the odd size 46341: on the final iteration `i = j = 23170` the
index expression of line 30 is 2147488280, which is not an `int`, and before that line 23
overflows, so that no entry is written and the function has no defined result. -/
theorem generateGaussianKernel_index_overflow :
    (46341 : Int) % 2 = 1 ∧ (1 : Int) ≤ 46341 ∧
      writeIndex 46341 (46341 / 2) (46341 / 2) (46341 / 2) = 2147488280 ∧
      INT_MAX < 2147488280 ∧
      writeIndexInt 46341 (46341 / 2) (46341 / 2) (46341 / 2) = none ∧
      generateGaussianKernel Real.exp 46341 1 = none :=
  ⟨by decide, by decide, by decide, by decide, by decide,
    generateGaussianKernel_overflow Real.exp 1 46341 (by decide)⟩

/-- C10, amended: the write index `(i + k/2) * k + (j + k/2)` of `generateGaussianKernel`,
for a size `k ≥ 0` whose square is an `int` (`k * k ≤ INT_MAX`). The index computed on
line 30 stays inside the `k * k` array on every loop iteration exactly when `k` is odd. When
`k` is odd the offsets `(i, j) ∈ [-(k/2), k/2]²` correspond one-to-one to the indices
`[0, k*k)`, the function returns an array of `k * k` entries, and the entry at every index
is the normalized value of the offsets of that index: every entry is written exactly once.
When `k` is even the final iteration `i = j = k/2` is executed and computes the index
`k*k + k`, which is out of range, so that the function has no defined result. -/
theorem generateGaussianKernel_index_range [Zero α] [Add α] [Mul α] [Div α] [IntCast α]
    (exp : α → α) (sigma : α) (k : Int) (hk : 0 ≤ k) (hfit : k * k ≤ INT_MAX) :
    Int.tdiv k 2 = k / 2 ∧
    ((∀ i j : Int, -(k / 2) ≤ i → i ≤ k / 2 → -(k / 2) ≤ j → j ≤ k / 2 →
        ∃ idx, writeIndexInt k (k / 2) i j = some idx ∧ 0 ≤ idx ∧ idx < k * k) ↔ k % 2 = 1) ∧
    (k % 2 = 1 →
      (∀ n : Int, 0 ≤ n → n < k * k →
        ∃! p : Int × Int, (-(k / 2) ≤ p.1 ∧ p.1 ≤ k / 2 ∧ -(k / 2) ≤ p.2 ∧ p.2 ≤ k / 2) ∧
          writeIndexInt k (k / 2) p.1 p.2 = some n) ∧
      (∃ kernel : Array α, generateGaussianKernel exp k sigma = some kernel ∧
        (kernel.size : Int) = k * k ∧
        ∀ n : ℕ, (n : Int) < k * k →
          kernel[n]? = some (gaussianValue exp sigma
            ((n : Int) / k - k / 2) ((n : Int) % k - k / 2) / gaussianSum exp sigma (k / 2)))) ∧
    (k % 2 = 0 →
      (-(k / 2) ≤ k / 2 ∧ writeIndexInt k (k / 2) (k / 2) (k / 2) = some (k * k + k) ∧
        ¬ (k * k + k < k * k)) ∧
      generateGaussianKernel exp k sigma = none) := by
  have hodd : k % 2 = 1 →
      (∀ i j : Int, -(k / 2) ≤ i → i ≤ k / 2 → -(k / 2) ≤ j → j ≤ k / 2 →
        ∃ idx, writeIndexInt k (k / 2) i j = some idx ∧ 0 ≤ idx ∧ idx < k * k) ∧
      (∀ n : Int, 0 ≤ n → n < k * k →
        ∃! p : Int × Int, (-(k / 2) ≤ p.1 ∧ p.1 ≤ k / 2 ∧ -(k / 2) ≤ p.2 ∧ p.2 ≤ k / 2) ∧
          writeIndexInt k (k / 2) p.1 p.2 = some n) ∧
      (∃ kernel : Array α, generateGaussianKernel exp k sigma = some kernel ∧
        (kernel.size : Int) = k * k ∧
        ∀ n : ℕ, (n : Int) < k * k →
          kernel[n]? = some (gaussianValue exp sigma
            ((n : Int) / k - k / 2) ((n : Int) % k - k / 2) / gaussianSum exp sigma (k / 2))) := by
    intro hodd
    obtain ⟨H, hkH, hH⟩ := odd_decomp k hodd (by omega)
    rw [hH]
    subst hkH
    refine ⟨?_, ?_, ?_⟩
    · intro i j hi0 hi1 hj0 hj1
      exact ⟨_, writeIndexInt_odd H hfit i j hi0 hi1 hj0 hj1,
        writeIndex_bounds H i j hi0 hi1 hj0 hj1⟩
    · intro n h0 h1
      obtain ⟨p, ⟨hp, hpn⟩, huniq⟩ := writeIndex_unique H n h0 h1
      refine ⟨p, ⟨hp, ?_⟩, ?_⟩
      · rw [writeIndexInt_odd H hfit p.1 p.2 hp.1 hp.2.1 hp.2.2.1 hp.2.2.2, hpn]
      · rintro q ⟨hq, hqn⟩
        apply huniq q ⟨hq, ?_⟩
        rw [writeIndexInt_odd H hfit q.1 q.2 hq.1 hq.2.1 hq.2.2.1 hq.2.2.2] at hqn
        exact Option.some.inj hqn
    · obtain ⟨kernel, hres, hsz, hent⟩ := generateGaussianKernel_spec exp sigma H hfit
      have hpos := entries_by_position H kernel (gaussianValue exp sigma) hent
      refine ⟨_, hres, by rw [Array.size_map, hsz]; push_cast; ring, ?_⟩
      intro n hn
      have hn' : n < (2 * H + 1) * (2 * H + 1) := by exact_mod_cast hn
      rw [Array.getElem?_map, hpos n hn']
      have e1 : ((n / (2 * H + 1) : ℕ) : Int) = (n : Int) / (2 * (H : Int) + 1) := by
        push_cast; rfl
      have e2 : ((n % (2 * H + 1) : ℕ) : Int) = (n : Int) % (2 * (H : Int) + 1) := by
        push_cast; rfl
      rw [e1, e2]
      rfl
  have heven : k % 2 = 0 →
      (-(k / 2) ≤ k / 2 ∧ writeIndexInt k (k / 2) (k / 2) (k / 2) = some (k * k + k) ∧
        ¬ (k * k + k < k * k)) ∧
      generateGaussianKernel exp k sigma = none := by
    intro heven
    obtain ⟨h, hkh, hh⟩ : ∃ h : ℕ, k = 2 * (h : Int) ∧ k / 2 = h := by
      refine ⟨(k / 2).toNat, ?_, ?_⟩ <;> omega
    rw [hh]
    subst hkh
    exact ⟨⟨by omega, writeIndexInt_last_even h hfit, by omega⟩,
      generateGaussianKernel_even exp sigma h⟩
  refine ⟨Int.tdiv_eq_ediv hk (by norm_num), ⟨?_, fun h => (hodd h).1⟩,
    fun h => (hodd h).2, heven⟩
  intro hall
  by_contra hne
  have h0 : k % 2 = 0 := by omega
  obtain ⟨⟨hle, hidx, hout⟩, _⟩ := heven h0
  obtain ⟨idx, hidx', _, hlt⟩ := hall (k / 2) (k / 2) hle (le_refl _) hle (le_refl _)
  rw [hidx] at hidx'
  have := Option.some.inj hidx'
  omega

/-- Instances at the odd size 3 and at the even size 4. -/
theorem generateGaussianKernel_index_range_witness :
    (∀ n : Int, 0 ≤ n → n < 3 * 3 →
        ∃! p : Int × Int, (-((3 : Int) / 2) ≤ p.1 ∧ p.1 ≤ 3 / 2 ∧ -((3 : Int) / 2) ≤ p.2 ∧
          p.2 ≤ 3 / 2) ∧ writeIndexInt 3 (3 / 2) p.1 p.2 = some n) ∧
      writeIndexInt 4 (4 / 2) (4 / 2) (4 / 2) = some (4 * 4 + 4) ∧
      generateGaussianKernel Real.exp 4 1 = none :=
  ⟨((generateGaussianKernel_index_range Real.exp 1 3 (by decide) (by decide)).2.2.1
      (by decide)).1,
    ((generateGaussianKernel_index_range Real.exp 1 4 (by decide) (by decide)).2.2.2
      (by decide)).1.2.1,
    ((generateGaussianKernel_index_range Real.exp 1 4 (by decide) (by decide)).2.2.2
      (by decide)).2⟩

/-! ### Runs of `main` -/

theorem bind_apply {β γ : Type} (m : M β) (f : β → M γ) (t : List Event) :
    (m >>= f) t = match m t with
      | (Except.ok a, t') => f a t'
      | (Except.error e, t') => (Except.error e, t') := rfl

theorem pure_apply {β : Type} (a : β) (t : List Event) :
    (pure a : M β) t = (Except.ok a, t) := rfl

theorem emit_bind {γ : Type} (ev : Event) (f : Unit → M γ) (t : List Event) :
    (emit ev >>= f) t = f () (t ++ [ev]) := rfl

theorem stop_bind {β γ : Type} (s : Stop) (f : β → M γ) (t : List Event) :
    ((stop s : M β) >>= f) t = (Except.error s, t) := rfl

theorem clCall_apply (env : Env) (line : Nat) (ev : Event) (t : List Event) :
    clCall env line ev t =
      if env.status line = CL_SUCCESS then (Except.ok CL_SUCCESS, t ++ [ev])
      else (Except.error (Stop.thrown ⟨env.what line, env.status line⟩), t) := by
  unfold clCall errHandler
  by_cases h : env.status line = CL_SUCCESS
  · simp [h, bind_apply, pure_apply, emit]
  · simp [h, bind_apply, stop, CL_HPP_ENABLE_EXCEPTIONS]

theorem clCall_bind {γ : Type} (env : Env) (line : Nat) (ev : Event) (f : Int → M γ)
    (t : List Event) :
    (clCall env line ev >>= f) t =
      if env.status line = CL_SUCCESS then f CL_SUCCESS (t ++ [ev])
      else (Except.error (Stop.thrown ⟨env.what line, env.status line⟩), t) := by
  rw [bind_apply, clCall_apply]
  split_ifs <;> rfl

theorem runStmts_cons (env : Env) (s : Stmt) (rest : List Stmt) (t : List Event) :
    runStmts env (s :: rest) t = (runStmt env s >>= fun _ => runStmts env rest) t := rfl

theorem runStmts_nil (env : Env) (t : List Event) : runStmts env [] t = (Except.ok (), t) := rfl

theorem runStmt_call (env : Env) (line : Nat) (ev : Event) (st : Option Stop)
    (t : List Event) :
    runStmt env ⟨line, true, ev, st⟩ t =
      if env.status line = CL_SUCCESS then (Except.ok (), t ++ [ev])
      else (Except.error (Stop.thrown ⟨env.what line, env.status line⟩), t) := by
  show (clCall env line ev >>= fun _ => pure ()) t = _
  rw [clCall_bind]
  split_ifs <;> rfl

theorem runStmt_host (env : Env) (line : Nat) (ev : Event) (t : List Event) :
    runStmt env ⟨line, false, ev, none⟩ t = (Except.ok (), t ++ [ev]) := rfl

theorem runStmt_stop (env : Env) (line : Nat) (ev : Event) (st : Stop) (t : List Event) :
    runStmt env ⟨line, false, ev, some st⟩ t = (Except.error st, t) := rfl

theorem runStmts_cons_call (env : Env) (line : Nat) (ev : Event) (st : Option Stop)
    (rest : List Stmt) (t : List Event) :
    runStmts env (⟨line, true, ev, st⟩ :: rest) t =
      if env.status line = CL_SUCCESS then runStmts env rest (t ++ [ev])
      else (Except.error (Stop.thrown ⟨env.what line, env.status line⟩), t) := by
  rw [runStmts_cons, bind_apply, runStmt_call]
  split_ifs <;> rfl

theorem runStmts_cons_host (env : Env) (line : Nat) (ev : Event) (rest : List Stmt)
    (t : List Event) :
    runStmts env (⟨line, false, ev, none⟩ :: rest) t = runStmts env rest (t ++ [ev]) := rfl

theorem runStmts_cons_stop (env : Env) (line : Nat) (ev : Event) (st : Stop)
    (rest : List Stmt) (t : List Event) :
    runStmts env (⟨line, false, ev, some st⟩ :: rest) t = (Except.error st, t) := rfl

theorem outputSize_of_fits (src : Image) (h : OutputFits src) :
    outputSize src = Except.ok (src.rows * src.cols * 4) := by
  obtain ⟨h0, h1⟩ := h
  unfold outputSize
  unfold INT_MAX at h1
  rw [intValue_eq_some (src.rows * src.cols) (by unfold INT_MIN; omega)
    (by unfold INT_MAX; omega)]
  simp only
  rw [intValue_eq_some (src.rows * src.cols * 4) (by unfold INT_MIN; omega)
    (by unfold INT_MAX; omega)]
  simp only
  rw [if_neg (by omega)]

theorem outputStop_of_fits (src : Image) (h : OutputFits src) : outputStop src = none := by
  unfold outputStop
  rw [outputSize_of_fits src h]

theorem outputSize_of_stop_none (src : Image) (h : outputStop src = none) :
    outputSize src = Except.ok (src.rows * src.cols * 4) := by
  unfold outputStop at h
  unfold outputSize at h ⊢
  cases h1 : intValue (src.rows * src.cols) with
  | none => rw [h1] at h; simp at h
  | some pixels =>
    rw [h1] at h
    simp only at h ⊢
    have e1 := intValue_some _ _ h1
    subst e1
    cases h2 : intValue (src.rows * src.cols * 4) with
    | none => rw [h2] at h; simp at h
    | some bytes =>
      rw [h2] at h
      simp only at h ⊢
      have e2 := intValue_some _ _ h2
      subst e2
      split_ifs with hneg
      · rw [if_pos hneg] at h; simp at h
      · rfl

theorem allocOutput_bind_none {γ : Type} (src : Image) (h : outputStop src = none)
    (f : Unit → M γ) (t : List Event) :
    (allocOutput src >>= f) t = f () (t ++ [Event.allocOutput (src.rows * src.cols * 4)]) := by
  unfold allocOutput
  rw [outputSize_of_stop_none src h]
  rfl

theorem allocOutput_bind_some {γ : Type} (src : Image) (st : Stop)
    (h : outputStop src = some st) (f : Unit → M γ) (t : List Event) :
    (allocOutput src >>= f) t = (Except.error st, t) := by
  unfold allocOutput
  unfold outputStop at h
  cases hsz : outputSize src with
  | error s =>
    rw [hsz] at h
    simp only [Option.some.injEq] at h
    subst h
    rfl
  | ok b => rw [hsz] at h; simp at h

/-- Lines 103-200 are the statements of `pipelineStmts` run in order. -/
theorem filterPipeline_eq_runStmts (env : Env) (src : Image) (kernelSize : Int)
    (gaussianKernelSize : Nat) :
    filterPipeline env src kernelSize gaussianKernelSize
      = runStmts env (pipelineStmts src kernelSize gaussianKernelSize) := by
  funext t
  unfold filterPipeline pipelineStmts
  cases h : outputStop src with
  | none =>
    simp only [clCall_bind, emit_bind, allocOutput_bind_none src h, runStmts_cons_call,
      runStmts_cons_host, runStmts_nil]
    rfl
  | some st =>
    simp only [clCall_bind, emit_bind, allocOutput_bind_some src st h, runStmts_cons_call,
      runStmts_cons_host, runStmts_cons_stop, runStmts_nil]

theorem runStmt_of_succeeds (env : Env) (s : Stmt) (h : s.succeeds env) (t : List Event) :
    runStmt env s t = (Except.ok (), t ++ [s.event]) := by
  obtain ⟨line, backend, ev, st⟩ := s
  cases backend with
  | false =>
    have := h.2 rfl
    simp only at this
    subst this
    rfl
  | true => rw [runStmt_call, if_pos (h.1 rfl)]

/-- When no statement ends the run, every statement is executed. -/
theorem runStmts_ok (env : Env) :
    ∀ (stmts : List Stmt) (t : List Event), (∀ s ∈ stmts, s.succeeds env) →
      runStmts env stmts t = (Except.ok (), t ++ stmts.map (fun s => s.event)) := by
  intro stmts
  induction stmts with
  | nil => intro t _; simp [runStmts_nil]
  | cons s rest ih =>
    intro t h
    rw [runStmts_cons, bind_apply, runStmt_of_succeeds env s (h s (List.mem_cons_self _ _))]
    simp only
    rw [ih _ (fun s hs => h s (List.mem_cons_of_mem _ hs))]
    simp

/-- At the first statement that ends the run the statements before it have been executed. -/
theorem runStmts_first (env : Env) (s : Stmt) (post : List Stmt) (e : Stop)
    (hs : ∀ t, runStmt env s t = (Except.error e, t)) :
    ∀ (pre : List Stmt) (t : List Event), (∀ s' ∈ pre, s'.succeeds env) →
      runStmts env (pre ++ s :: post) t =
        (Except.error e, t ++ pre.map (fun s => s.event)) := by
  intro pre
  induction pre with
  | nil =>
    intro t _
    rw [List.nil_append, runStmts_cons, bind_apply, hs]
    simp
  | cons a rest ih =>
    intro t h
    rw [List.cons_append, runStmts_cons, bind_apply,
      runStmt_of_succeeds env a (h a (List.mem_cons_self _ _))]
    simp only
    rw [ih _ (fun s hs => h s (List.mem_cons_of_mem _ hs))]
    simp

/-- At the first failing OpenCL call the statements before it have been executed, and the
call throws. -/
theorem runStmts_fail (env : Env) (s : Stmt) (post : List Stmt) (hs : s.backend = true)
    (hfail : env.status s.line ≠ CL_SUCCESS) (pre : List Stmt) (t : List Event)
    (hpre : ∀ s' ∈ pre, s'.succeeds env) :
    runStmts env (pre ++ s :: post) t =
      (Except.error (Stop.thrown ⟨env.what s.line, env.status s.line⟩),
        t ++ pre.map (fun s => s.event)) := by
  refine runStmts_first env s post _ ?_ pre t hpre
  intro t'
  obtain ⟨line, backend, ev, st⟩ := s
  simp only at hs hfail
  subst hs
  rw [runStmt_call, if_neg hfail]

/-- At the first host statement that stops the run the statements before it have been
executed. -/
theorem runStmts_stop (env : Env) (s : Stmt) (post : List Stmt) (e : Stop)
    (hs : s.backend = false) (hstop : s.stops = some e) (pre : List Stmt) (t : List Event)
    (hpre : ∀ s' ∈ pre, s'.succeeds env) :
    runStmts env (pre ++ s :: post) t = (Except.error e, t ++ pre.map (fun s => s.event)) := by
  refine runStmts_first env s post _ ?_ pre t hpre
  intro t'
  obtain ⟨line, backend, ev, st⟩ := s
  simp only at hs hstop
  subst hs
  subst hstop
  rfl

/-- In any case the statements executed are an initial segment of the block. -/
theorem runStmts_cases (env : Env) :
    ∀ (stmts : List Stmt) (t : List Event),
      ∃ n : ℕ, (runStmts env stmts t).2 = t ++ (stmts.take n).map (fun s => s.event) := by
  intro stmts
  induction stmts with
  | nil => intro t; exact ⟨0, by simp [runStmts_nil]⟩
  | cons s rest ih =>
    intro t
    obtain ⟨line, backend, ev, st⟩ := s
    cases backend with
    | false =>
      cases st with
      | none =>
        obtain ⟨n, h1⟩ := ih (t ++ [ev])
        exact ⟨n + 1, by rw [runStmts_cons_host, h1]; simp⟩
      | some e => exact ⟨0, by rw [runStmts_cons_stop]; simp⟩
    | true =>
      by_cases hst : env.status line = CL_SUCCESS
      · obtain ⟨n, h1⟩ := ih (t ++ [ev])
        exact ⟨n + 1, by rw [runStmts_cons_call, if_pos hst, h1]; simp⟩
      · exact ⟨0, by rw [runStmts_cons_call, if_neg hst]; simp⟩

theorem split_at_line :
    ∀ (stmts : List Stmt), stmts.Pairwise (fun a b => a.line < b.line) →
      ∀ s ∈ stmts, ∃ post,
        stmts = stmts.filter (fun x => decide (x.line < s.line)) ++ s :: post := by
  intro stmts
  induction stmts with
  | nil => intro _ s hs; simp at hs
  | cons a rest ih =>
    intro hp s hs
    rw [List.pairwise_cons] at hp
    obtain ⟨ha, hrest⟩ := hp
    rcases List.mem_cons.mp hs with rfl | hmem
    · refine ⟨rest, ?_⟩
      have hnil : rest.filter (fun x => decide (x.line < s.line)) = [] := by
        rw [List.filter_eq_nil_iff]
        intro b hb
        have := ha b hb
        simp only [decide_eq_true_eq]
        omega
      simp [List.filter_cons, hnil]
    · obtain ⟨post, hpost⟩ := ih hrest s hmem
      refine ⟨post, ?_⟩
      have hlt : a.line < s.line := ha s hmem
      rw [List.filter_cons, if_pos (by simpa using hlt), List.cons_append, ← hpost]

theorem pipelineStmts_sorted (src : Image) (kernelSize : Int) (gaussianKernelSize : Nat) :
    (pipelineStmts src kernelSize gaussianKernelSize).Pairwise (fun a b => a.line < b.line) := by
  have hlines : (pipelineStmts src kernelSize gaussianKernelSize).map (fun s => s.line)
      = [105, 106, 110, 113, 114, 115, 116, 117, 121, 124, 125, 131, 134, 135, 138, 139, 140,
        141, 142, 145, 146, 152, 155, 156, 160, 161, 162, 165, 166, 172, 175, 176, 180, 181,
        182, 183, 186, 187, 193, 196, 197, 200] := rfl
  have hp : ((pipelineStmts src kernelSize gaussianKernelSize).map (fun s => s.line)).Pairwise
      (fun a b => a < b) := by
    rw [hlines]
    decide
  exact (List.pairwise_map.mp hp)

/-- The kernel generated on line 63 has 225 entries, whatever the arithmetic. -/
theorem gaussianKernel_main [Zero α] [Add α] [Mul α] [Div α] [IntCast α] (exp : α → α) :
    ∃ kernel : Array α,
      generateGaussianKernel exp 15 ((3 : Int) : α) = some kernel ∧ kernel.size = 225 := by
  obtain ⟨kernel, sum, hres, hsz, _⟩ :=
    generateGaussianKernel_odd exp ((3 : Int) : α) 7 (by unfold INT_MAX; norm_num)
      (fun _ _ _ => True) trivial
      (fun _ _ _ _ => trivial) (fun _ _ _ => trivial)
  have h15 : (2 * ((7 : ℕ) : Int) + 1) = 15 := by norm_num
  rw [h15] at hres
  exact ⟨_, hres, by rw [Array.size_map, hsz]⟩

theorem front_of_head {β : Type} (l : List β) (x : β) (h : l.head? = some x) :
    front l = pure x := by
  cases l with
  | nil => simp at h
  | cons a rest =>
    simp only [List.head?_cons, Option.some.injEq] at h
    subst h
    rfl

theorem pure_bind_apply {β γ : Type} (a : β) (f : β → M γ) :
    ((pure a : M β) >>= f) = f a := rfl

theorem tryBody_reaches (env : Env) (src : Image) (p d : Nat) (text : String)
    (kernelSize : Int) (gaussianKernelSize : Nat)
    (h : ReachesPipeline env src p d text) (t : List Event) :
    tryBody env src kernelSize gaussianKernelSize t =
      runStmts env (pipelineStmts src kernelSize gaussianKernelSize)
        (t ++ [Event.getPlatforms, Event.printf (Progress.platforms env.platforms.length),
          Event.getDevicesGPU p, Event.createContext d, Event.createCommandQueue d,
          Event.createProgram text, Event.printf Progress.programCreated,
          Event.build d "-cl-opt-disable", Event.printf Progress.programBuilt]) := by
  unfold tryBody loadKernel
  rw [front_of_head _ _ h.platform_eq]
  simp only [clCall_bind, emit_bind, h.status68, if_true, pure_bind_apply, h.status73]
  rw [front_of_head _ _ h.device_eq]
  simp only [clCall_bind, emit_bind, if_true, pure_bind_apply,
    h.status77, h.status80, h.status86, h.status88, h.kernelFile_eq]
  simp [CL_SUCCESS, CL_BUILD_PROGRAM_FAILURE, emit_bind, filterPipeline_eq_runStmts]

/-- A run that reaches line 103 is the run of the statements of lines 103-200, followed by
`return 0` or by the `catch` clause. -/
theorem main_reaches [Zero α] [Add α] [Mul α] [Div α] [IntCast α] (exp : α → α) (env : Env)
    (src : Image) (p d : Nat) (text : String) (h : ReachesPipeline env src p d text) :
    main exp env =
      match runStmts env (pipelineStmts src 15 225) (setupEvents env p d text) with
      | (Except.ok _, t) => ⟨t, some (Stop.returned 0)⟩
      | (Except.error (Stop.thrown e), t) =>
          ⟨t ++ [Event.cerr (Message.opencl e.what e.err)], some (Stop.returned (-1))⟩
      | (Except.error s, t) => ⟨t, some s⟩ := by
  obtain ⟨kernel, hker, hsz⟩ := gaussianKernel_main exp
  unfold main mainBody
  simp only [h.argc_eq, ne_eq, not_true_eq_false, if_false, emit_bind, h.decoded_eq, hker, hsz]
  rw [bind_apply]
  unfold tryCatch
  simp only [tryBody_reaches env src p d text 15 225 h, List.nil_append, List.cons_append,
    List.singleton_append]
  unfold setupEvents
  generalize runStmts env (pipelineStmts src 15 225) _ = r
  rcases r with ⟨r1, t⟩
  rcases r1 with e | u
  · cases e <;> rfl
  · rfl

theorem pipelineStmts_commands (src : Image) :
    ((pipelineStmts src 15 225).map (fun s => s.event)).filter isFilterCommand
      = expectedCommands src.cols src.rows := by
  simp [pipelineStmts, expectedCommands, isFilterCommand, mul_comm]

/-- Only line 124 can stop the run among the host statements of the block. -/
theorem pipelineStmts_stops (src : Image) (kernelSize : Int) (gaussianKernelSize : Nat)
    (s : Stmt) (hs : s ∈ pipelineStmts src kernelSize gaussianKernelSize) :
    s.stops = none ∨ (s.line = 124 ∧ s.backend = false ∧ s.stops = outputStop src) := by
  simp only [pipelineStmts, List.mem_cons, List.mem_singleton, List.not_mem_nil, or_false] at hs
  rcases hs with
    rfl | rfl | rfl | rfl | rfl | rfl | rfl | rfl | rfl | rfl | rfl | rfl | rfl | rfl
    | rfl | rfl | rfl | rfl | rfl | rfl | rfl | rfl | rfl | rfl | rfl | rfl | rfl | rfl
    | rfl | rfl | rfl | rfl | rfl | rfl | rfl | rfl | rfl | rfl | rfl | rfl | rfl | rfl
  all_goals simp

theorem main_success [Zero α] [Add α] [Mul α] [Div α] [IntCast α] (exp : α → α) (env : Env)
    (src : Image) (p d : Nat) (text : String) (h : ReachesPipeline env src p d text)
    (hfit : OutputFits src) (hok : ∀ l, env.status l = CL_SUCCESS) :
    main exp env = ⟨setupEvents env p d text ++ (pipelineStmts src 15 225).map (fun s => s.event),
      some (Stop.returned 0)⟩ := by
  rw [main_reaches exp env src p d text h, runStmts_ok env _ _ (fun s hs => ⟨fun _ => hok s.line,
    fun _ => by
      rcases pipelineStmts_stops src 15 225 s hs with h1 | ⟨_, _, h1⟩
      · exact h1
      · rw [h1, outputStop_of_fits src hfit]⟩)]

/-- The statements before a statement `s` of the block succeed when the OpenCL calls among
them do and, if line 124 is among them, the size of the output buffer is an `int`. -/
theorem pipelineStmts_before_succeed (env : Env) (src : Image) (s : Stmt)
    (hbefore : ∀ s' ∈ pipelineStmts src 15 225, s'.backend = true → s'.line < s.line →
      env.status s'.line = CL_SUCCESS)
    (hfit : 124 < s.line → OutputFits src) :
    ∀ s' ∈ (pipelineStmts src 15 225).filter (fun x => decide (x.line < s.line)),
      s'.succeeds env := by
  intro s' hs'
  rw [List.mem_filter] at hs'
  have hlt : s'.line < s.line := by simpa using hs'.2
  refine ⟨fun hb' => hbefore s' hs'.1 hb' hlt, fun _ => ?_⟩
  rcases pipelineStmts_stops src 15 225 s' hs'.1 with h1 | ⟨hline, _, h1⟩
  · exact h1
  · rw [h1, outputStop_of_fits src (hfit (by omega))]

theorem main_failure [Zero α] [Add α] [Mul α] [Div α] [IntCast α] (exp : α → α) (env : Env)
    (src : Image) (p d : Nat) (text : String) (h : ReachesPipeline env src p d text)
    (s : Stmt) (hs : s ∈ pipelineStmts src 15 225) (hb : s.backend = true)
    (hbefore : ∀ s' ∈ pipelineStmts src 15 225, s'.backend = true → s'.line < s.line →
      env.status s'.line = CL_SUCCESS)
    (hfit : 124 < s.line → OutputFits src)
    (hfail : env.status s.line ≠ CL_SUCCESS) :
    main exp env =
      ⟨setupEvents env p d text
          ++ ((pipelineStmts src 15 225).filter (fun x => decide (x.line < s.line))).map
              (fun s => s.event)
          ++ [Event.cerr (Message.opencl (env.what s.line) (env.status s.line))],
        some (Stop.returned (-1))⟩ := by
  obtain ⟨post, hpost⟩ := split_at_line _ (pipelineStmts_sorted src 15 225) s hs
  rw [main_reaches exp env src p d text h]
  have hrun := runStmts_fail env s post hb hfail
    ((pipelineStmts src 15 225).filter (fun x => decide (x.line < s.line)))
    (setupEvents env p d text) (pipelineStmts_before_succeed env src s hbefore hfit)
  rw [← hpost] at hrun
  rw [hrun]

/-- A run in which line 124 overflows `int`: the statements of lines 105-121 have been
executed, nothing later is. -/
theorem main_output_overflow [Zero α] [Add α] [Mul α] [Div α] [IntCast α] (exp : α → α)
    (env : Env) (src : Image) (p d : Nat) (text : String)
    (h : ReachesPipeline env src p d text)
    (hbefore : ∀ s' ∈ pipelineStmts src 15 225, s'.backend = true → s'.line < 124 →
      env.status s'.line = CL_SUCCESS)
    (hstop : outputStop src = some Stop.undefinedBehaviour) :
    main exp env =
      ⟨setupEvents env p d text
          ++ ((pipelineStmts src 15 225).filter (fun x => decide (x.line < 124))).map
              (fun s => s.event),
        some Stop.undefinedBehaviour⟩ := by
  have hs : (⟨124, false, Event.allocOutput (src.rows * src.cols * 4), outputStop src⟩ : Stmt)
      ∈ pipelineStmts src 15 225 := by
    simp [pipelineStmts]
  obtain ⟨post, hpost⟩ := split_at_line _ (pipelineStmts_sorted src 15 225) _ hs
  rw [main_reaches exp env src p d text h]
  have hrun := runStmts_stop env
    ⟨124, false, Event.allocOutput (src.rows * src.cols * 4), outputStop src⟩ post
    Stop.undefinedBehaviour rfl hstop
    ((pipelineStmts src 15 225).filter (fun x => decide (x.line < 124)))
    (setupEvents env p d text)
    (pipelineStmts_before_succeed env src
      ⟨124, false, Event.allocOutput (src.rows * src.cols * 4), outputStop src⟩ hbefore
      (fun hlt => absurd hlt (lt_irrefl 124)))
  rw [← hpost] at hrun
  rw [hrun]

theorem main_wrong_argc [Zero α] [Add α] [Mul α] [Div α] [IntCast α] (exp : α → α) (env : Env)
    (h : env.argc ≠ 2) :
    main exp env = ⟨[Event.cerr (Message.usage env.argv0)], some (Stop.returned (-1))⟩ := by
  unfold main mainBody
  simp only [h, ne_eq, not_false_eq_true, if_true, emit_bind]
  rfl

theorem main_image_empty [Zero α] [Add α] [Mul α] [Div α] [IntCast α] (exp : α → α) (env : Env)
    (h : env.argc = 2) (himg : env.decoded = none) :
    main exp env = ⟨[Event.imread env.argv1, Event.cerr Message.imageNotFound],
      some (Stop.returned (-1))⟩ := by
  unfold main mainBody
  simp only [h, ne_eq, not_true_eq_false, if_false, emit_bind, himg]
  rfl

theorem main_decoded [Zero α] [Add α] [Mul α] [Div α] [IntCast α] (exp : α → α) (env : Env)
    (src : Image) (h : env.argc = 2) (himg : env.decoded = some src) :
    main exp env = Run.ofResult
      ((tryCatch (tryBody env src 15 225) catchHandler >>= fun _ => stop (Stop.returned 0))
        [Event.imread env.argv1, Event.imshow "Original Image",
          Event.cvtColor "COLOR_BGR2RGBA", Event.printf Progress.gaussianKernelGenerated]) := by
  obtain ⟨kernel, hker, hsz⟩ := gaussianKernel_main exp
  unfold main mainBody
  simp only [h, ne_eq, not_true_eq_false, if_false, emit_bind, himg, hker, hsz]
  rfl

theorem tryCatch_finish (body : M Unit) (t : List Event) :
    Run.ofResult ((tryCatch body catchHandler >>= fun _ => stop (Stop.returned 0)) t)
      = finishTry (body t) := by
  rw [bind_apply]
  unfold tryCatch
  rcases hb : body t with ⟨r1, t'⟩
  rcases r1 with e | u
  · cases e <;> rfl
  · rfl

theorem main_eq_finishTry [Zero α] [Add α] [Mul α] [Div α] [IntCast α] (exp : α → α) (env : Env)
    (src : Image) (h : env.argc = 2) (himg : env.decoded = some src) :
    main exp env = finishTry (tryBody env src 15 225
        [Event.imread env.argv1, Event.imshow "Original Image",
          Event.cvtColor "COLOR_BGR2RGBA", Event.printf Progress.gaussianKernelGenerated]) := by
  rw [main_decoded exp env src h himg, tryCatch_finish]

/-- A failing build on line 88: the exception leaves the `try` block before line 91. -/
theorem tryBody_build_failure (env : Env) (src : Image) (p d : Nat) (text : String)
    (hp : env.platforms.head? = some p) (hd : (env.gpuDevices p).head? = some d)
    (hf : env.readFile "kernel.cl" = some text)
    (h68 : env.status 68 = CL_SUCCESS) (h73 : env.status 73 = CL_SUCCESS)
    (h77 : env.status 77 = CL_SUCCESS) (h80 : env.status 80 = CL_SUCCESS)
    (h86 : env.status 86 = CL_SUCCESS) (h88 : env.status 88 ≠ CL_SUCCESS) (t : List Event) :
    tryBody env src 15 225 t =
      (Except.error (Stop.thrown ⟨env.what 88, env.status 88⟩),
        t ++ [Event.getPlatforms, Event.printf (Progress.platforms env.platforms.length),
          Event.getDevicesGPU p, Event.createContext d, Event.createCommandQueue d,
          Event.createProgram text, Event.printf Progress.programCreated]) := by
  unfold tryBody loadKernel
  rw [front_of_head _ _ hp]
  simp only [clCall_bind, emit_bind, h68, if_true, pure_bind_apply, h73]
  rw [front_of_head _ _ hd]
  simp only [clCall_bind, emit_bind, if_true, pure_bind_apply, h77, h80, h86, h88, hf, if_false,
    List.append_assoc, List.singleton_append, List.cons_append, List.nil_append]

/-- No GPU device on the first platform: `devices.front()` on line 74 is reached. -/
theorem tryBody_no_device (env : Env) (src : Image) (p : Nat)
    (hp : env.platforms.head? = some p) (hd : env.gpuDevices p = [])
    (h68 : env.status 68 = CL_SUCCESS) (h73 : env.status 73 = CL_SUCCESS) (t : List Event) :
    tryBody env src 15 225 t =
      (Except.error Stop.undefinedBehaviour,
        t ++ [Event.getPlatforms, Event.printf (Progress.platforms env.platforms.length),
          Event.getDevicesGPU p]) := by
  unfold tryBody
  rw [front_of_head _ _ hp]
  simp only [clCall_bind, emit_bind, h68, if_true, pure_bind_apply, h73, hd, front, stop_bind,
    List.append_assoc, List.singleton_append, List.cons_append, List.nil_append]

/-- No platform: `platforms.front()` on line 70 is reached. -/
theorem tryBody_no_platform (env : Env) (src : Image)
    (hp : env.platforms = []) (h68 : env.status 68 = CL_SUCCESS) (t : List Event) :
    tryBody env src 15 225 t =
      (Except.error Stop.undefinedBehaviour,
        t ++ [Event.getPlatforms, Event.printf (Progress.platforms 0)]) := by
  unfold tryBody
  simp only [clCall_bind, emit_bind, h68, if_true, hp, front, stop_bind, List.length_nil,
    List.append_assoc, List.singleton_append, List.cons_append, List.nil_append]

theorem finishTry_filter (r : Except Stop Unit × List Event) :
    (finishTry r).trace.filter isFilterCommand = r.2.filter isFilterCommand := by
  rcases r with ⟨r1, t⟩
  rcases r1 with e | u
  · cases e <;> simp [finishTry, isFilterCommand]
  · simp [finishTry]

theorem runStmts_filter (env : Env) (src : Image) (t : List Event) :
    ∃ l, l <+: expectedCommands src.cols src.rows ∧
      (runStmts env (pipelineStmts src 15 225) t).2.filter isFilterCommand
        = t.filter isFilterCommand ++ l := by
  obtain ⟨n, hn⟩ := runStmts_cases env (pipelineStmts src 15 225) t
  refine ⟨(((pipelineStmts src 15 225).take n).map (fun s => s.event)).filter isFilterCommand,
    ?_, by rw [hn, List.filter_append]⟩
  rw [← pipelineStmts_commands src]
  exact List.IsPrefix.filter _ (List.IsPrefix.map _ (List.take_prefix _ _))

/-- In every run of the `try` block the bindings, dispatches and read-backs performed form
an initial segment of `expectedCommands`. -/
theorem tryBody_filter (env : Env) (src : Image) (t : List Event) :
    ∃ l, l <+: expectedCommands src.cols src.rows ∧
      (tryBody env src 15 225 t).2.filter isFilterCommand = t.filter isFilterCommand ++ l := by
  by_cases h68 : env.status 68 = CL_SUCCESS
  swap
  · exact ⟨[], List.nil_prefix, by
      simp [tryBody, clCall_bind, h68]⟩
  rcases hP : env.platforms with _ | ⟨p, ps⟩
  · exact ⟨[], List.nil_prefix, by
      simp [tryBody, clCall_bind, emit_bind, h68, hP, front, stop_bind, isFilterCommand]⟩
  by_cases h73 : env.status 73 = CL_SUCCESS
  swap
  · exact ⟨[], List.nil_prefix, by
      simp [tryBody, clCall_bind, emit_bind, h68, hP, front, pure_bind_apply, h73,
        isFilterCommand]⟩
  rcases hD : env.gpuDevices p with _ | ⟨d, ds⟩
  · exact ⟨[], List.nil_prefix, by
      simp [tryBody, clCall_bind, emit_bind, h68, hP, front, pure_bind_apply, h73, hD,
        stop_bind, isFilterCommand]⟩
  by_cases h77 : env.status 77 = CL_SUCCESS
  swap
  · exact ⟨[], List.nil_prefix, by
      simp [tryBody, clCall_bind, emit_bind, h68, hP, front, pure_bind_apply, h73, hD, h77,
        isFilterCommand]⟩
  by_cases h80 : env.status 80 = CL_SUCCESS
  swap
  · exact ⟨[], List.nil_prefix, by
      simp [tryBody, clCall_bind, emit_bind, h68, hP, front, pure_bind_apply, h73, hD, h77, h80,
        isFilterCommand]⟩
  rcases hF : env.readFile "kernel.cl" with _ | text
  · exact ⟨[], List.nil_prefix, by
      simp [tryBody, loadKernel, clCall_bind, emit_bind, h68, hP, front, pure_bind_apply, h73,
        hD, h77, h80, hF, bind_apply, clCall_apply, emit, stop, isFilterCommand]⟩
  by_cases h86 : env.status 86 = CL_SUCCESS
  swap
  · exact ⟨[], List.nil_prefix, by
      simp [tryBody, loadKernel, clCall_bind, emit_bind, h68, hP, front, pure_bind_apply, h73,
        hD, h77, h80, hF, h86, isFilterCommand]⟩
  by_cases h88 : env.status 88 = CL_SUCCESS
  swap
  · exact ⟨[], List.nil_prefix, by
      simp [tryBody, loadKernel, clCall_bind, emit_bind, h68, hP, front, pure_bind_apply, h73,
        hD, h77, h80, hF, h86, h88, isFilterCommand]⟩
  have key : tryBody env src 15 225 t =
      runStmts env (pipelineStmts src 15 225)
        (t ++ [Event.getPlatforms, Event.printf (Progress.platforms env.platforms.length),
          Event.getDevicesGPU p, Event.createContext d, Event.createCommandQueue d,
          Event.createProgram text, Event.printf Progress.programCreated,
          Event.build d "-cl-opt-disable", Event.printf Progress.programBuilt]) := by
    unfold tryBody loadKernel
    simp only [clCall_bind, emit_bind, h68, if_true, hP, front, pure_bind_apply, h73, hD,
      h77, h80, h86, h88, hF]
    simp [CL_SUCCESS, CL_BUILD_PROGRAM_FAILURE, emit_bind, filterPipeline_eq_runStmts]
  obtain ⟨l, hl, hrun⟩ := runStmts_filter env src
    (t ++ [Event.getPlatforms, Event.printf (Progress.platforms env.platforms.length),
          Event.getDevicesGPU p, Event.createContext d, Event.createCommandQueue d,
          Event.createProgram text, Event.printf Progress.programCreated,
          Event.build d "-cl-opt-disable", Event.printf Progress.programBuilt])
  refine ⟨l, hl, ?_⟩
  rw [key, hrun]
  simp [isFilterCommand]

/-! ### The claims about `main` -/

/-- C4, as stated, fails at a run started without an image path: the guard of line 44
returns -1, no backend call is made, hence none fails, and no dispatch is enqueued. It fails
as well at a run on an image of 23171 x 23171 pixels in which every backend call succeeds:
the size of line 124 is not an `int`, and the run ends there after the first dispatch. -/
theorem dispatch_order_needs_pipeline :
    ((∀ l, usageEnv.status l = CL_SUCCESS) ∧
      (main Real.exp usageEnv).outcome = some (Stop.returned (-1)) ∧
      dispatchOrder (main Real.exp usageEnv).trace = [] ∧
      dispatchOrder (main Real.exp usageEnv).trace
        ≠ ["gaussian_filter", "bilateral_filter", "sharpen_filter", "median_filter"]) ∧
    ((∀ l, hugeImageEnv.status l = CL_SUCCESS) ∧
      INT_MAX < (23171 : Int) * 23171 * 4 ∧
      (main Real.exp hugeImageEnv).outcome = some Stop.undefinedBehaviour ∧
      dispatchOrder (main Real.exp hugeImageEnv).trace = ["gaussian_filter"] ∧
      readBackCount (main Real.exp hugeImageEnv).trace = 0) := by
  constructor
  · rw [main_wrong_argc Real.exp usageEnv (by decide)]
    refine ⟨fun _ => rfl, rfl, rfl, ?_⟩
    simp [dispatchOrder]
  · rw [main_output_overflow Real.exp hugeImageEnv ⟨23171, 23171⟩ 0 0 "kernels"
      ⟨rfl, rfl, rfl, rfl, rfl, rfl, rfl, rfl, rfl, rfl, rfl⟩ (fun _ _ _ _ => rfl) (by decide)]
    refine ⟨fun _ => rfl, by decide, rfl, ?_, ?_⟩
    · simp [setupEvents, pipelineStmts, dispatchOrder]
    · simp [setupEvents, pipelineStmts, readBackCount]

/-- C4, amended: in every run that reaches the pipeline (one argument, a decoded image, a
platform with a GPU device, a readable `kernel.cl`), whose output size `rows * cols * 4` is
a non-negative `int`, and in which no backend call fails, the dispatches enqueued are
exactly `gaussian_filter`, `bilateral_filter`, `sharpen_filter`, `median_filter` in that
order, every dispatch is followed by a blocking read-back of the destination image before
the next binding or dispatch, and `main` returns 0. -/
theorem main_dispatch_order [Zero α] [Add α] [Mul α] [Div α] [IntCast α] (exp : α → α)
    (env : Env) (src : Image) (p d : Nat) (text : String)
    (hargc : env.argc = 2) (himg : env.decoded = some src)
    (hplat : env.platforms.head? = some p) (hdev : (env.gpuDevices p).head? = some d)
    (hfile : env.readFile "kernel.cl" = some text)
    (hsize0 : 0 ≤ src.rows * src.cols) (hsize : src.rows * src.cols * 4 ≤ INT_MAX)
    (hok : ∀ l, env.status l = CL_SUCCESS) :
    (main exp env).outcome = some (Stop.returned 0) ∧
      dispatchOrder (main exp env).trace
        = ["gaussian_filter", "bilateral_filter", "sharpen_filter", "median_filter"] ∧
      readBackSeparates false (main exp env).trace = true := by
  have hreach : ReachesPipeline env src p d text :=
    ⟨hargc, himg, hplat, hdev, hfile, hok _, hok _, hok _, hok _, hok _, hok _⟩
  rw [main_success exp env src p d text hreach ⟨hsize0, hsize⟩ hok]
  refine ⟨rfl, ?_, ?_⟩
  · simp [setupEvents, pipelineStmts, dispatchOrder]
  · simp [setupEvents, pipelineStmts, readBackSeparates]

/-- Instance at a run on a 4 x 3 image in which every step succeeds. -/
theorem main_dispatch_order_witness :
    (main Real.exp sampleEnv).outcome = some (Stop.returned 0) ∧
      dispatchOrder (main Real.exp sampleEnv).trace
        = ["gaussian_filter", "bilateral_filter", "sharpen_filter", "median_filter"] ∧
      readBackSeparates false (main Real.exp sampleEnv).trace = true :=
  main_dispatch_order Real.exp sampleEnv ⟨4, 3⟩ 0 0 "kernels" rfl rfl rfl rfl rfl
    (by decide) (by decide) (fun _ => rfl)

/-- C5, at a failing build: with `CL_HPP_ENABLE_EXCEPTIONS` the failure of `program.build`
is thrown, the branch of lines 91-96 is not reached, and the handler of line 203 writes only
the error text and status. The build log is not written; `main` returns -1. -/
theorem build_failure_log_not_written :
    (main Real.exp buildFailureEnv).outcome = some (Stop.returned (-1)) ∧
      (main Real.exp buildFailureEnv).trace =
        [Event.imread "input.png", Event.imshow "Original Image",
          Event.cvtColor "COLOR_BGR2RGBA", Event.printf Progress.gaussianKernelGenerated,
          Event.getPlatforms, Event.printf (Progress.platforms 1), Event.getDevicesGPU 0,
          Event.createContext 0, Event.createCommandQueue 0, Event.createProgram "kernels",
          Event.printf Progress.programCreated,
          Event.cerr (Message.opencl "clError" CL_BUILD_PROGRAM_FAILURE)] ∧
      Event.cerr (Message.compilation buildFailureEnv.buildLog)
        ∉ (main Real.exp buildFailureEnv).trace := by
  have hmain := main_eq_finishTry Real.exp buildFailureEnv ⟨4, 3⟩ rfl rfl
  rw [tryBody_build_failure buildFailureEnv ⟨4, 3⟩ 0 0 "kernels" rfl rfl rfl rfl rfl rfl rfl rfl
    (by decide)] at hmain
  rw [hmain]
  refine ⟨rfl, rfl, ?_⟩
  simp [finishTry]

/-- C6, at a platform without GPU device and at an empty platform list: `devices.front()`
on line 74, respectively `platforms.front()` on line 70, is evaluated on an empty vector,
which is undefined behaviour; no initialization error is raised and no exit status is
defined. -/
theorem no_gpu_device_undefined :
    ((main Real.exp noGpuEnv).outcome = some Stop.undefinedBehaviour ∧
      (main Real.exp noGpuEnv).trace =
        [Event.imread "input.png", Event.imshow "Original Image",
          Event.cvtColor "COLOR_BGR2RGBA", Event.printf Progress.gaussianKernelGenerated,
          Event.getPlatforms, Event.printf (Progress.platforms 1), Event.getDevicesGPU 0]) ∧
    ((main Real.exp noPlatformEnv).outcome = some Stop.undefinedBehaviour ∧
      (main Real.exp noPlatformEnv).trace =
        [Event.imread "input.png", Event.imshow "Original Image",
          Event.cvtColor "COLOR_BGR2RGBA", Event.printf Progress.gaussianKernelGenerated,
          Event.getPlatforms, Event.printf (Progress.platforms 0)]) := by
  have hmain := main_eq_finishTry Real.exp noGpuEnv ⟨4, 3⟩ rfl rfl
  rw [tryBody_no_device noGpuEnv ⟨4, 3⟩ 0 rfl rfl rfl rfl] at hmain
  have hmain0 := main_eq_finishTry Real.exp noPlatformEnv ⟨4, 3⟩ rfl rfl
  rw [tryBody_no_platform noPlatformEnv ⟨4, 3⟩ rfl rfl] at hmain0
  rw [hmain, hmain0]
  exact ⟨⟨rfl, rfl⟩, ⟨rfl, rfl⟩⟩

/-- C7: when a backend call of the pipeline fails (every pipeline call before it having
succeeded and, for a call after line 124, the output buffer having been allocated), every
statement on an earlier line has been executed, nothing on a later line is, the handler
writes the error, and `main` returns -1. In particular the output files of the filters
completed before are written and no other, as many read-backs were done as filters
completed, and no kernel of a later filter is created, bound or dispatched. -/
theorem main_fail_fast [Zero α] [Add α] [Mul α] [Div α] [IntCast α] (exp : α → α)
    (env : Env) (src : Image) (p d : Nat) (text : String)
    (hreach : ReachesPipeline env src p d text)
    (s : Stmt) (hs : s ∈ pipelineStmts src 15 225) (hb : s.backend = true)
    (hbefore : ∀ s' ∈ pipelineStmts src 15 225, s'.backend = true → s'.line < s.line →
      env.status s'.line = CL_SUCCESS)
    (halloc : 124 < s.line → OutputFits src)
    (hfail : env.status s.line ≠ CL_SUCCESS) :
    (main exp env).outcome = some (Stop.returned (-1)) ∧
      (main exp env).trace =
        setupEvents env p d text
          ++ ((pipelineStmts src 15 225).filter (fun x => decide (x.line < s.line))).map
              (fun x => x.event)
          ++ [Event.cerr (Message.opencl (env.what s.line) (env.status s.line))] ∧
      writtenFiles (main exp env).trace =
        ["Gaussian_Filtered_Image.jpg", "Bilateral_Filtered_Image.jpg", "Sharpened_Image.jpg",
          "Median_Filtered_Image.jpg"].take (filterOfLine s.line) ∧
      readBackCount (main exp env).trace = filterOfLine s.line ∧
      (∀ k ∈ kernelsTouched (main exp env).trace,
        k ∈ ["gaussian_filter", "bilateral_filter", "sharpen_filter", "median_filter"].take
          (filterOfLine s.line + 1)) := by
  rw [main_failure exp env src p d text hreach s hs hb hbefore halloc hfail]
  refine ⟨rfl, rfl, ?_⟩
  clear hbefore hfail halloc
  simp only [pipelineStmts, List.mem_cons, List.mem_singleton, List.not_mem_nil, or_false] at hs
  rcases hs with
    rfl | rfl | rfl | rfl | rfl | rfl | rfl | rfl | rfl | rfl | rfl | rfl | rfl | rfl
    | rfl | rfl | rfl | rfl | rfl | rfl | rfl | rfl | rfl | rfl | rfl | rfl | rfl | rfl
    | rfl | rfl | rfl | rfl | rfl | rfl | rfl | rfl | rfl | rfl | rfl | rfl | rfl | rfl
  all_goals first
    | (exfalso; exact Bool.false_ne_true hb)
    | simp [pipelineStmts, setupEvents, writtenFiles, readBackCount, kernelsTouched,
        filterOfLine]

/-- Instance at a run in which the read-back of the second filter fails. -/
theorem main_fail_fast_witness :
    (main Real.exp readBackFailureEnv).outcome = some (Stop.returned (-1)) ∧
      writtenFiles (main Real.exp readBackFailureEnv).trace = ["Gaussian_Filtered_Image.jpg"] ∧
      readBackCount (main Real.exp readBackFailureEnv).trace = 1 ∧
      (∀ k ∈ kernelsTouched (main Real.exp readBackFailureEnv).trace,
        k ∈ ["gaussian_filter", "bilateral_filter"]) :=
  have h := main_fail_fast Real.exp readBackFailureEnv ⟨4, 3⟩ 0 0 "kernels"
    ⟨rfl, rfl, rfl, rfl, rfl, rfl, rfl, rfl, rfl, rfl, rfl⟩
    ⟨146, true, Event.enqueueReadImage MemObject.dstImage true [0, 0, 0] [4, 3, 1] (3 * 4 * 4),
      none⟩
    (by simp [pipelineStmts]) rfl
    (by
      intro s' _ _ hlt
      have hne : s'.line ≠ 146 := by
        have : s'.line < 146 := hlt
        omega
      simp [readBackFailureEnv, sampleEnv, hne, CL_SUCCESS])
    (fun _ => ⟨by decide, by decide⟩)
    (by decide)
  ⟨h.1, h.2.2.1, h.2.2.2.1, h.2.2.2.2⟩

/-- C8, as stated, fails at an image of 23171 x 23171 pixels, with every backend call
succeeding: the size `rows * cols * 4` of line 124 is 2147580964, which is not an `int`, and
the run ends there. The first dispatch is not followed by a read-back, and the bindings and
dispatches of the other three filters are not made. -/
theorem filter_commands_need_int_size :
    (∀ l, hugeImageEnv.status l = CL_SUCCESS) ∧
      INT_MAX < (23171 : Int) * 23171 * 4 ∧
      (main Real.exp hugeImageEnv).outcome = some Stop.undefinedBehaviour ∧
      (main Real.exp hugeImageEnv).trace.filter isFilterCommand
        = (expectedCommands 23171 23171).take 6 ∧
      (main Real.exp hugeImageEnv).trace.filter isFilterCommand
        ≠ expectedCommands 23171 23171 := by
  rw [main_output_overflow Real.exp hugeImageEnv ⟨23171, 23171⟩ 0 0 "kernels"
    ⟨rfl, rfl, rfl, rfl, rfl, rfl, rfl, rfl, rfl, rfl, rfl⟩ (fun _ _ _ _ => rfl) (by decide)]
  refine ⟨fun _ => rfl, by decide, rfl, ?_, ?_⟩
  · simp [setupEvents, pipelineStmts, expectedCommands, isFilterCommand]
  · simp [setupEvents, pipelineStmts, expectedCommands, isFilterCommand]

/-- C8, amended: for an input image of width `w` and height `h` whose buffer size
`w * h * 4` is a non-negative `int`, the bindings, dispatches and read-backs of a run are,
in order, those of `expectedCommands w h`: source image as argument 0 and destination image
as argument 1 of every filter; the coefficient buffer of 225 floats and the kernel size 15
for smoothing, the weights `2.0f` and `0.1f` for edge-aware smoothing, nothing more for
sharpening, the radius 3 for noise reduction; every dispatch on the 2D grid `(w, h)` without
offset or local size, followed by a blocking read-back of the region `(w, h, 1)` into the
host buffer of `w * h * 4` bytes. A run that stops early performs an initial segment of
them (for every image), a run in which every step succeeds performs them all. -/
theorem main_filter_commands [Zero α] [Add α] [Mul α] [Div α] [IntCast α] (exp : α → α)
    (env : Env) (src : Image) (himg : env.decoded = some src) :
    (main exp env).trace.filter isFilterCommand <+: expectedCommands src.cols src.rows ∧
      (∀ (p d : Nat) (text : String), env.argc = 2 → env.platforms.head? = some p →
        (env.gpuDevices p).head? = some d → env.readFile "kernel.cl" = some text →
        0 ≤ src.rows * src.cols → src.rows * src.cols * 4 ≤ INT_MAX →
        (∀ l, env.status l = CL_SUCCESS) →
        (main exp env).trace.filter isFilterCommand = expectedCommands src.cols src.rows) := by
  constructor
  · by_cases hargc : env.argc = 2
    · rw [main_eq_finishTry exp env src hargc himg, finishTry_filter]
      obtain ⟨l, hl, hrun⟩ := tryBody_filter env src
        [Event.imread env.argv1, Event.imshow "Original Image",
          Event.cvtColor "COLOR_BGR2RGBA", Event.printf Progress.gaussianKernelGenerated]
      rw [hrun]
      simpa [isFilterCommand] using hl
    · rw [main_wrong_argc exp env hargc]
      simp [isFilterCommand]
  · intro p d text hargc hplat hdev hfile hsize0 hsize hok
    have hreach : ReachesPipeline env src p d text :=
      ⟨hargc, himg, hplat, hdev, hfile, hok _, hok _, hok _, hok _, hok _, hok _⟩
    rw [main_success exp env src p d text hreach ⟨hsize0, hsize⟩ hok]
    simp only [List.filter_append, pipelineStmts_commands]
    simp [setupEvents, isFilterCommand]

/-- Instance at a run on a 4 x 3 image in which every step succeeds. -/
theorem main_filter_commands_witness :
    (main Real.exp sampleEnv).trace.filter isFilterCommand = expectedCommands 4 3 :=
  (main_filter_commands Real.exp sampleEnv ⟨4, 3⟩ rfl).2 0 0 "kernels" rfl rfl rfl rfl
    (by decide) (by decide) (fun _ => rfl)

/-- C9: when the argument count is not 2, `main` only writes the usage text and returns -1:
no image is read and no device work is done. When it is 2 and the decoded image is empty,
`main` writes a different error text and returns -1 after the attempt to read the image,
before any platform is queried. -/
theorem main_rejects_bad_input [Zero α] [Add α] [Mul α] [Div α] [IntCast α] (exp : α → α)
    (env : Env) :
    (env.argc ≠ 2 →
      main exp env = ⟨[Event.cerr (Message.usage env.argv0)], some (Stop.returned (-1))⟩) ∧
    (env.argc = 2 → env.decoded = none →
      main exp env = ⟨[Event.imread env.argv1, Event.cerr Message.imageNotFound],
        some (Stop.returned (-1))⟩) ∧
    Message.imageNotFound ≠ Message.usage env.argv0 ∧ Stop.returned (-1) ≠ Stop.returned 0 :=
  ⟨main_wrong_argc exp env, main_image_empty exp env, by simp, by simp⟩

/-- Instances at a run without image path and at a run on an unreadable image. -/
theorem main_rejects_bad_input_witness :
    main Real.exp usageEnv = ⟨[Event.cerr (Message.usage "filters")], some (Stop.returned (-1))⟩ ∧
      main Real.exp unreadableEnv
        = ⟨[Event.imread "input.png", Event.cerr Message.imageNotFound],
            some (Stop.returned (-1))⟩ :=
  ⟨(main_rejects_bad_input Real.exp usageEnv).1 (by decide),
    (main_rejects_bad_input Real.exp unreadableEnv).2.1 rfl rfl⟩

end ImageFilters
